import Mathlib

/-!
Verification of the tempest build-tool (sandstorm-org/tempest).

This file shallowly embeds the parts of the Go sources that the claims
C1-C10 are about: the string/path helpers, the tar-extraction primitives
(`extractTar` from the current archive-utility revision and the earlier
`extractTarGz` revision that hard-failed on rejected entries), the
toolchain registry (`toolchain.toml`) read/update/write functions, the
configuration resolver (`populateBisonRuntimeConfig`,
`populateBpfAsmRuntimeConfig`), and the per-tool bootstrap orchestrators
(`BootstrapBpfAsm`, `BootstrapFlex`, `BootstrapCapnProto`) together with
the schema code-generation pipeline (`GenerateCapnp`).

Strings are modelled as lists of characters (`GoStr`).  Operating-system
effects (stat, download, subprocess exit status, archive decompression)
are supplied by oracles in a world structure, and each bootstrap returns
the list of externally visible events it performed, so that properties
such as "no network request is made" or "no extraction function is
invoked" become statements about the event trace.  `text/template`
expansion is not embedded; the expanded filename and URL are inputs of
the corresponding configuration getters, which is the only place the
templates are consumed.
-/

/-- Go strings are modelled as lists of characters. -/
abbrev GoStr := List Char

/-- Shorthand to build a `GoStr` from a Lean string literal. -/
def gs (s : String) : GoStr := s.toList

/-- Go `strings.HasPrefix s pre`: true when `s` begins with `pre`. -/
def stringsHasPrefix (s pre : GoStr) : Bool := pre.isPrefixOf s

/-- Go `strings.HasSuffix s suf`: true when `s` ends with `suf`. -/
def stringsHasSuffix (s suf : GoStr) : Bool := suf.isSuffixOf s

/-- `ensureTrailingSlash` from the archive-utility file: append the path
separator (`/` on this platform) unless it is already the last character. -/
def ensureTrailingSlash (filePath : GoStr) : GoStr :=
  if stringsHasSuffix filePath (gs "/") then filePath else filePath ++ gs "/"

/-- One step of Go `path/filepath.Clean`'s element processing: drop empty
and `.` elements, let `..` pop the previous element (except past the root
or past leading `..`s in a relative path). -/
def goCleanStep (rooted : Bool) (out : List GoStr) (seg : GoStr) : List GoStr :=
  if seg = [] ∨ seg = gs "." then out
  else if seg = gs ".." then
    if out ≠ [] ∧ out.getLast? ≠ some (gs "..") then out.dropLast
    else if rooted then out else out ++ [gs ".."]
  else out ++ [seg]

/-- Go `path/filepath.Clean` (Unix rules, lexical). -/
def goClean (p : GoStr) : GoStr :=
  if p = [] then gs "."
  else
    let rooted := p.head? = some '/'
    let segs := (p.splitOn '/').foldl (goCleanStep rooted) []
    let body := (segs.intersperse (gs "/")).flatten
    if rooted then '/' :: body
    else if body = [] then gs "." else body

/-- Go `path/filepath.Join`: skip leading empty elements, join the rest
with `/`, and clean the result; all-empty input yields the empty path. -/
def goJoin (elems : List GoStr) : GoStr :=
  match elems.dropWhile (fun e => e = []) with
  | [] => []
  | rest => goClean ((rest.intersperse (gs "/")).flatten)

/-- Path elements of a cleaned path, used by the `goRel` model. -/
def goPathSegs (p : GoStr) : List GoStr :=
  (p.splitOn '/').filter (fun s => s ≠ [])

/-- Drop the longest common leading run of two segment lists, returning
the two remainders. -/
def dropCommonSegs : List GoStr → List GoStr → (List GoStr × List GoStr)
  | b :: bs, t :: ts =>
    if b = t then dropCommonSegs bs ts else (b :: bs, t :: ts)
  | bs, ts => (bs, ts)

/-- Go `path/filepath.Rel` (Unix rules, lexical): the path that, joined
to `basepath`, is lexically equivalent to `targpath`; `none` models the
error return (mixed absolute/relative arguments, or a base that cannot
be backed out of). -/
def goRel (basepath targpath : GoStr) : Option GoStr :=
  let base := goClean basepath
  let targ := goClean targpath
  if targ = base then some (gs ".")
  else
    let base := if base = gs "." then [] else base
    if (base.head? = some '/') ≠ (targ.head? = some '/') then none
    else
      let (brest, trest) := dropCommonSegs (goPathSegs base) (goPathSegs targ)
      if brest.contains (gs "..") then none
      else
        let segs := List.replicate brest.length (gs "..") ++ trest
        some ((segs.intersperse (gs "/")).flatten)

/-- Go `path/filepath.Abs` (lexical model): clean an absolute path, or
join a relative path onto the working directory `cwd`. -/
def goAbs (cwd p : GoStr) : GoStr :=
  if p.head? = some '/' then goClean p else goJoin [cwd, p]

/-- `filterLinuxTarXz` from the kernel-source bootstrap file: walk the
desired prefixes in order and accept the entry as soon as the path starts
with the prefix truncated to the shorter of the two lengths. -/
def filterLinuxTarXz (prefixes : List GoStr) (filePath : GoStr) : Bool :=
  match prefixes with
  | [] => false
  | p :: rest =>
    let maxPathLength := min p.length filePath.length
    if stringsHasPrefix filePath (p.take maxPathLength) then true
    else filterLinuxTarXz rest filePath

/-- `filterLinuxTarXzFactory`: close over the desired prefixes. -/
def filterLinuxTarXzFactory (desiredPrefixes : List GoStr) : GoStr → Bool :=
  fun filePath => filterLinuxTarXz desiredPrefixes filePath

/-- `transformLinuxTarXz`: strip the common versioned archive root and
rebase the remainder under the destination directory. -/
def transformLinuxTarXz (destinationDir filePath : GoStr) (prefixLength : Nat) : GoStr :=
  let maxLength := min filePath.length prefixLength
  goJoin [destinationDir, filePath.drop maxLength]

/-- `filterFlexTarGz`: a Flex archive entry is acceptable when its path
starts with the versioned top-level directory. -/
def filterFlexTarGz (versionedDir filePath : GoStr) : Bool :=
  stringsHasPrefix filePath versionedDir

/-- `filterFlexTarGzFactory`: the factory normalizes the versioned
directory to carry a trailing slash before closing over it. -/
def filterFlexTarGzFactory (versionedDir : GoStr) : GoStr → Bool :=
  fun filePath => filterFlexTarGz (ensureTrailingSlash versionedDir) filePath

/-- `transformFlexTarGz`: rebase a Flex archive entry under the
toolchain directory. -/
def transformFlexTarGz (toolchainDir filePath : GoStr) : GoStr :=
  goJoin [toolchainDir, filePath]

/-- `filterBisonTarXz`: a Bison archive entry is acceptable when its path
starts with the versioned top-level directory. -/
def filterBisonTarXz (versionedDir filePath : GoStr) : Bool :=
  stringsHasPrefix filePath versionedDir

/-- `filterBisonTarXzFactory`: normalizes the versioned directory to carry
a trailing slash before closing over it. -/
def filterBisonTarXzFactory (versionedDir : GoStr) : GoStr → Bool :=
  fun filePath => filterBisonTarXz (ensureTrailingSlash versionedDir) filePath

/-! ## Tar extraction model

Archive entries and an abstract filesystem.  Filesystem operations mirror
the behaviour the Go code relies on: creating a file (or a directory)
inside a directory updates that directory's modification time, and
`os.Chtimes` rewrites the times of an existing node without touching its
parent.  Operating-system failures are not modelled (the claims concern
runs in which the OS calls succeed), so the only errors the extraction
functions can raise are the ones raised by the Go code itself. -/

/-- Tar entry type flags used by the code (`tar.TypeDir`, `tar.TypeReg`,
`tar.TypeSymlink`, `tar.TypeXGlobalHeader`, anything else). -/
inductive TarTypeflag
  | typeDir
  | typeReg
  | typeSymlink
  | typeXGlobalHeader
  | typeOther (c : Char)
deriving DecidableEq

/-- The fields of a `tar.Header` consumed by the extraction code. -/
structure TarHeader where
  Typeflag : TarTypeflag
  Name : GoStr
  Mode : Int
  AccessTime : Int
  ModTime : Int
deriving DecidableEq

/-- A filesystem node: directory flag, permission mode and times. -/
structure FsNode where
  isDir : Bool
  mode : Int
  atime : Int
  mtime : Int
deriving DecidableEq

/-- The abstract filesystem: a partial map from paths to nodes. -/
abbrev ExtractFs := GoStr → Option FsNode

/-- Point update of the filesystem map. -/
def setNode (fs : ExtractFs) (p : GoStr) (n : FsNode) : ExtractFs :=
  fun q => if q = p then some n else fs q

/-- The parent directory of a path: everything before the last slash. -/
def parentPath (p : GoStr) : GoStr :=
  ((p.reverse.dropWhile (fun c => c ≠ '/')).drop 1).reverse

/-- Creating an entry inside a directory updates that directory's
modification time (this is what the deferred directory-time restoration
in the Go code exists to undo). -/
def touchParent (now : Int) (fs : ExtractFs) (p : GoStr) : ExtractFs :=
  match fs (parentPath p) with
  | some n => setNode fs (parentPath p) { n with mtime := now }
  | none => fs

/-- `os.MkdirAll` as used on an entry's transformed path: no-op when the
node already exists, otherwise create a directory node (bumping the
parent's modification time). -/
def osMkdirAll (now : Int) (fs : ExtractFs) (p : GoStr) (dirMode : Int) : ExtractFs :=
  match fs p with
  | some _ => fs
  | none => setNode (touchParent now fs p) p ⟨true, dirMode, now, now⟩

/-- `os.Create` followed by the byte copy: create or truncate a regular
file node (bumping the parent's modification time). -/
def osCreate (now : Int) (fs : ExtractFs) (p : GoStr) : ExtractFs :=
  setNode (touchParent now fs p) p ⟨false, 0, now, now⟩

/-- `File.Chmod`: set the permission mode of an existing node. -/
def osChmod (fs : ExtractFs) (p : GoStr) (m : Int) : ExtractFs :=
  match fs p with
  | some n => setNode fs p { n with mode := m }
  | none => fs

/-- `os.Chtimes`: rewrite the times of an existing node; the parent is
not touched. -/
def osChtimes (fs : ExtractFs) (p : GoStr) (accessTime modTime : Int) : ExtractFs :=
  match fs p with
  | some n => setNode fs p { n with atime := accessTime, mtime := modTime }
  | none => fs

/-- A deferred directory-time record (`dirTime` in the Go code). -/
structure dirTime where
  dirName : GoStr
  accessTime : Int
  modificationTime : Int
deriving DecidableEq

/-- State threaded through the entry loop: the filesystem plus the
directory-time records accumulated in creation order. -/
structure ExtractState where
  fs : ExtractFs
  dirTimes : List dirTime

/-- The entry loop of the current `extractTar` (shared by `extractTarGz`
and `extractTarXz`): rejected directory and regular-file entries are
silently ignored, symlinks and the PAX global header are skipped, any
other type flag is an error. -/
def extractTarLoop (filter : GoStr → Bool) (transform : GoStr → GoStr)
    (now : Int) : List TarHeader → ExtractState → Except String ExtractState
  | [], s => .ok s
  | next :: rest, s =>
    if next.Typeflag = .typeDir then
      if filter next.Name then
        let newDir := transform next.Name
        let fs := osMkdirAll now s.fs newDir next.Mode
        extractTarLoop filter transform now rest
          ⟨fs, s.dirTimes ++ [⟨newDir, next.AccessTime, next.ModTime⟩]⟩
      else
        extractTarLoop filter transform now rest s
    else if next.Typeflag = .typeReg then
      if filter next.Name then
        let newFile := transform next.Name
        let fs := osChtimes (osChmod (osCreate now s.fs newFile) newFile next.Mode)
          newFile next.AccessTime next.ModTime
        extractTarLoop filter transform now rest ⟨fs, s.dirTimes⟩
      else
        extractTarLoop filter transform now rest s
    else if next.Typeflag = .typeSymlink then
      extractTarLoop filter transform now rest s
    else if next.Typeflag = .typeXGlobalHeader then
      extractTarLoop filter transform now rest s
    else
      .error "Unexpected type in tar header"

/-- The deferred directory-time restoration: `slices.Reverse(dirTimes)`
followed by one `os.Chtimes` per record. -/
def restoreDirTimes (records : List dirTime) (fs : ExtractFs) : ExtractFs :=
  records.foldl (fun fs d => osChtimes fs d.dirName d.accessTime d.modificationTime) fs

/-- `extractTar` from the current archive-utility revision: process all
entries, then restore directory times in reverse creation order. -/
def extractTar (filter : GoStr → Bool) (transform : GoStr → GoStr) (now : Int)
    (entries : List TarHeader) (fs : ExtractFs) : Except String ExtractFs :=
  match extractTarLoop filter transform now entries ⟨fs, []⟩ with
  | .error e => .error e
  | .ok s => .ok (restoreDirTimes s.dirTimes.reverse s.fs)

/-- The entry loop of the earlier `extractTarGz` revision: a rejected
directory or regular-file entry is a hard error, and only directory and
regular-file entries are recognized at all. -/
def extractTarGzRejectLoop (filter : GoStr → Bool) (transform : GoStr → GoStr)
    (now : Int) : List TarHeader → ExtractState → Except String ExtractState
  | [], s => .ok s
  | next :: rest, s =>
    if next.Typeflag = .typeDir then
      if filter next.Name then
        let newDir := transform next.Name
        let fs := osMkdirAll now s.fs newDir next.Mode
        extractTarGzRejectLoop filter transform now rest
          ⟨fs, s.dirTimes ++ [⟨newDir, next.AccessTime, next.ModTime⟩]⟩
      else
        .error "Directory in archive has unexpected path"
    else if next.Typeflag = .typeReg then
      if filter next.Name then
        let newFile := transform next.Name
        let fs := osChtimes (osChmod (osCreate now s.fs newFile) newFile next.Mode)
          newFile next.AccessTime next.ModTime
        extractTarGzRejectLoop filter transform now rest ⟨fs, s.dirTimes⟩
      else
        .error "File in archive has unexpected path"
    else
      .error "Unexpected type in tar header"

/-- The earlier `extractTarGz` revision (reject-as-error semantics),
with the same deferred directory-time restoration. -/
def extractTarGzReject (filter : GoStr → Bool) (transform : GoStr → GoStr) (now : Int)
    (entries : List TarHeader) (fs : ExtractFs) : Except String ExtractFs :=
  match extractTarGzRejectLoop filter transform now entries ⟨fs, []⟩ with
  | .error e => .error e
  | .ok s => .ok (restoreDirTimes s.dirTimes.reverse s.fs)

/-- The empty filesystem used by concrete extraction scenarios. -/
def emptyFs : ExtractFs := fun _ => none

/-! ## Extraction lemmas -/

/-- The presence-and-directory shape of a filesystem slot. -/
def dirShape (o : Option FsNode) : Option Bool := o.map FsNode.isDir

/-- The directory-time records contributed by a list of entries. -/
def dirRecords (filter : GoStr → Bool) (transform : GoStr → GoStr)
    (entries : List TarHeader) : List dirTime :=
  entries.filterMap (fun e =>
    if e.Typeflag = .typeDir ∧ filter e.Name = true then
      some ⟨transform e.Name, e.AccessTime, e.ModTime⟩
    else none)

/-- Query helper: the slot a path holds after an extraction result,
`none` when extraction failed. -/
def extractResultAt (r : Except String ExtractFs) (p : GoStr) : Option (Option FsNode) :=
  match r with
  | .error _ => none
  | .ok fs => some (fs p)

/-- A Flex-style archive whose first entry lies outside the versioned
prefix and whose second entry lies inside it. -/
def c1Entries : List TarHeader :=
  [⟨.typeReg, gs "evil.txt", 420, 1, 2⟩,
   ⟨.typeReg, gs "flex-2.6.4/a", 420, 3, 4⟩]

/-- Running the current `extractTar` on `c1Entries` with Flex's
filter/transform pair. -/
def c1Result : Except String ExtractFs :=
  extractTar (filterFlexTarGzFactory (gs "flex-2.6.4"))
    (transformFlexTarGz (gs "/tc")) 100 c1Entries emptyFs

/-- The synthetic archive from the extraction-fidelity scenario: a
directory with modification time 10 followed by a file inside it with
modification time 20. -/
def c7WitnessEntries : List TarHeader :=
  [⟨.typeDir, gs "flex-2.6.4/", 493, 10, 10⟩,
   ⟨.typeReg, gs "flex-2.6.4/a", 420, 20, 20⟩]

/-- The filesystem produced by extracting `c7WitnessEntries` with Flex's
filter/transform pair at wall-clock time 100. -/
def c7WitnessFs : ExtractFs :=
  match extractTar (filterFlexTarGzFactory (gs "flex-2.6.4"))
      (transformFlexTarGz (gs "/tc")) 100 c7WitnessEntries emptyFs with
  | .ok fs => fs
  | .error _ => emptyFs

/-! ## Toolchain registry model (toolchain.go) -/

/-- One tool's persisted record (`ToolchainTomlTool`); Go zero values are
empty strings. -/
structure ToolchainTomlTool where
  Executable : GoStr := []
  Version : GoStr := []
deriving DecidableEq

/-- The persisted registry (`ToolchainTomlTopLevel`): one optional record
per tool; a `nil` pointer is `none`. -/
structure ToolchainTomlTopLevel where
  Binaryen : Option ToolchainTomlTool := none
  Bison : Option ToolchainTomlTool := none
  BpfAsm : Option ToolchainTomlTool := none
  CapnProto : Option ToolchainTomlTool := none
  Flex : Option ToolchainTomlTool := none
  Go : Option ToolchainTomlTool := none
  GoCapnp : Option ToolchainTomlTool := none
  TinyGo : Option ToolchainTomlTool := none
deriving DecidableEq

/-- The serialized `toolchain.toml` file: the banner lines written ahead
of the TOML body, and the body itself. -/
structure ToolchainTomlFile where
  banner : List String
  toml : ToolchainTomlTopLevel
deriving DecidableEq

/-- The persisted state of `toolchain.toml` under one toolchain
directory; `none` models a missing file. -/
abbrev ToolchainStore := Option ToolchainTomlFile

/-- Go error values distinguished by the code: `fs.ErrNotExist`, other
stat/open errors, and `fmt.Errorf` results identified by their format
string. -/
inductive GoErr where
  | notExistError
  | statError
  | errorf (format : String)
deriving DecidableEq

/-- `ReadToolchainToml`: parse the persisted registry; a missing file is
the not-exist error. -/
def ReadToolchainToml (store : ToolchainStore) : Except GoErr ToolchainTomlTopLevel :=
  match store with
  | none => .error .notExistError
  | some f => .ok f.toml

/-- The machine-managed banner written by `WriteToolchainToml`. -/
def tempestToolchainBanner : List String :=
  ["# This file is managed by the Tempest build-tool.",
   "# See internal/build-tool/toolchain.go"]

/-- `WriteToolchainToml`: serialize the full registry to the store,
preceded by the banner. -/
def WriteToolchainToml (toolchainTomlTopLevel : ToolchainTomlTopLevel) : ToolchainStore :=
  some ⟨tempestToolchainBanner, toolchainTomlTopLevel⟩

/-- The shared prologue of every update function: read the registry,
treating only missing-file as an empty registry (any other read error
propagates in the Go code; the model's store never produces one). -/
def readToolchainTomlOrNew (store : ToolchainStore) : ToolchainTomlTopLevel :=
  match ReadToolchainToml store with
  | .error _ => {}
  | .ok t => t

/-- `updateBpfAsmToolchainToml`: read-modify-write setting the bpf_asm
record's executable and version. -/
def updateBpfAsmToolchainToml (store : ToolchainStore) (executable version : GoStr) :
    ToolchainStore :=
  let t := readToolchainTomlOrNew store
  let tool := t.BpfAsm.getD {}
  WriteToolchainToml { t with BpfAsm := some { tool with Executable := executable, Version := version } }

/-- `updateBisonToolchainToml`: read-modify-write setting only the Bison
record's executable (the version field is left as it was). -/
def updateBisonToolchainToml (store : ToolchainStore) (executable : GoStr) :
    ToolchainStore :=
  let t := readToolchainTomlOrNew store
  let tool := t.Bison.getD {}
  WriteToolchainToml { t with Bison := some { tool with Executable := executable } }

/-- `updateFlexToolchainToml` (current revision): read-modify-write
setting the Flex record's executable and version. -/
def updateFlexToolchainToml (store : ToolchainStore) (executable version : GoStr) :
    ToolchainStore :=
  let t := readToolchainTomlOrNew store
  let tool := t.Flex.getD {}
  WriteToolchainToml { t with Flex := some { tool with Executable := executable, Version := version } }

/-- `updateCapnProtoToolchainToml`: read-modify-write setting the
Cap'n Proto record's executable and version. -/
def updateCapnProtoToolchainToml (store : ToolchainStore) (executable version : GoStr) :
    ToolchainStore :=
  let t := readToolchainTomlOrNew store
  let tool := t.CapnProto.getD {}
  WriteToolchainToml { t with CapnProto := some { tool with Executable := executable, Version := version } }

/-! ## Configuration resolver model (config.go, current revision) -/

/-- User configuration for Bison (`ConfigTomlBison`). -/
structure ConfigTomlBison where
  DownloadUrl : GoStr := []
  Executable : GoStr := []
  Version : GoStr := []
deriving DecidableEq

/-- User configuration for bpf_asm (`ConfigTomlBpfAsm`). -/
structure ConfigTomlBpfAsm where
  Executable : GoStr := []
  GoPath : GoStr := []
deriving DecidableEq

/-- User configuration for the Linux kernel source (`ConfigTomlLinux`). -/
structure ConfigTomlLinux where
  DownloadUrl : GoStr := []
  Version : GoStr := []
deriving DecidableEq

/-- One manifest entry (`DownloadsTomlFile`): expected digest and size. -/
structure DownloadsTomlFile where
  Sha256 : GoStr := []
  Size : Int := 0
deriving DecidableEq

/-- Manifest section for Bison (`DownloadsTomlBison`); the `Files` map is
a partial function from filename. -/
structure DownloadsTomlBison where
  DownloadUrlTemplate : GoStr := []
  FilenameTemplate : GoStr := []
  Files : GoStr → Option DownloadsTomlFile := fun _ => none
  PreferredVersion : GoStr := []

/-- Manifest section for the Linux kernel source (`DownloadsTomlLinux`). -/
structure DownloadsTomlLinux where
  DownloadUrlTemplate : GoStr := []
  FilenameTemplate : GoStr := []
  Files : GoStr → Option DownloadsTomlFile := fun _ => none
  PreferredVersion : GoStr := []

/-- Resolved per-file expectation (`runtimeConfigFile`). -/
structure runtimeConfigFile where
  sha256 : GoStr := []
  size : Int := 0
deriving DecidableEq

/-- Resolved directory set (`runtimeConfigDirectories`). -/
structure runtimeConfigDirectories where
  BuildDir : GoStr := []
  DownloadDir : GoStr := []
  IncrementalDir : GoStr := []
  ToolChainDir : GoStr := []
deriving DecidableEq

/-- Resolved Bison configuration (`runtimeConfigBison`). -/
structure runtimeConfigBison where
  downloadUrlTemplate : GoStr := []
  Executable : GoStr := []
  filenameTemplate : GoStr := []
  files : GoStr → Option runtimeConfigFile := fun _ => none
  toolchainDir : GoStr := []
  toolchainExecutable : GoStr := []
  toolchainVersion : GoStr := []
  version : GoStr := []
  versionedDir : GoStr := []

/-- Resolved bpf_asm configuration (`runtimeConfigBpfAsm`). -/
structure runtimeConfigBpfAsm where
  Executable : GoStr := []
  toolchainDir : GoStr := []
  toolchainExecutable : GoStr := []
  toolchainVersion : GoStr := []
  version : GoStr := []
deriving DecidableEq

/-- The executable cascade of `populateBisonRuntimeConfig`: the user
value, else the toolchain-recorded value made absolute whenever one is
recorded (no version comparison), else empty. -/
def populateBisonExecutable (cwd : GoStr) (configFile : ConfigTomlBison)
    (toolchainToml : ToolchainTomlTopLevel) : GoStr :=
  if configFile.Executable ≠ [] then configFile.Executable
  else
    match toolchainToml.Bison with
    | some b => if b.Executable ≠ [] then goAbs cwd b.Executable else []
    | none => []

/-- The version cascade of `populateBisonRuntimeConfig`: the user value,
else the manifest's preferred version. -/
def populateBisonVersion (configFile : ConfigTomlBison)
    (downloadsFile : DownloadsTomlBison) : GoStr :=
  if configFile.Version ≠ [] then configFile.Version
  else downloadsFile.PreferredVersion

/-- `populateBisonRuntimeConfig` (current config.go revision): cascade the
download URL, executable (user value, else the toolchain-recorded value
made absolute whenever one is recorded — with no version comparison),
template, toolchain record fields, and version; a fully-cascaded empty
version is the fatal configuration error. -/
def populateBisonRuntimeConfig (cwd : GoStr) (directories : runtimeConfigDirectories)
    (configFile : ConfigTomlBison) (downloadsFile : DownloadsTomlBison)
    (toolchainToml : ToolchainTomlTopLevel) : Except GoErr runtimeConfigBison :=
  let downloadUrlTemplate :=
    if configFile.DownloadUrl ≠ [] then configFile.DownloadUrl
    else downloadsFile.DownloadUrlTemplate
  let pre := gs "bison-"
  let (toolchainDir, toolchainExecutable, toolchainVersion) :=
    match toolchainToml.Bison with
    | none => ([], [], [])
    | some b =>
      (goJoin [directories.ToolChainDir, pre ++ b.Version], b.Executable, b.Version)
  if populateBisonVersion configFile downloadsFile = [] then
    .error (.errorf "Bison has no configured version")
  else
    .ok { downloadUrlTemplate := downloadUrlTemplate
          Executable := populateBisonExecutable cwd configFile toolchainToml
          filenameTemplate := downloadsFile.FilenameTemplate
          files := fun fileName =>
            (downloadsFile.Files fileName).map (fun x => ⟨x.Sha256, x.Size⟩)
          toolchainDir := toolchainDir
          toolchainExecutable := toolchainExecutable
          toolchainVersion := toolchainVersion
          version := populateBisonVersion configFile downloadsFile
          versionedDir := pre ++ populateBisonVersion configFile downloadsFile }

/-- The version cascade of `populateBpfAsmRuntimeConfig`: the Linux user
value, else the Linux manifest's preferred version. -/
def populateBpfAsmVersion (configFileLinux : ConfigTomlLinux)
    (downloadsFileLinux : DownloadsTomlLinux) : GoStr :=
  if configFileLinux.Version ≠ [] then configFileLinux.Version
  else downloadsFileLinux.PreferredVersion

/-- The executable cascade of `populateBpfAsmRuntimeConfig`: the user
value, else the toolchain-recorded value made absolute only when the
recorded version equals the effective version, else empty. -/
def populateBpfAsmExecutable (cwd : GoStr) (configFile : ConfigTomlBpfAsm)
    (toolchainToml : ToolchainTomlTopLevel) (version : GoStr) : GoStr :=
  if configFile.Executable ≠ [] then configFile.Executable
  else
    match toolchainToml.BpfAsm with
    | some b =>
      if b.Executable ≠ [] ∧ b.Version = version then goAbs cwd b.Executable else []
    | none => []

/-- `populateBpfAsmRuntimeConfig` (current config.go revision): the
version comes from the Linux configuration; the executable cascade takes
the user value, else the toolchain-recorded value made absolute — but
only when the recorded version equals the effective version — else empty. -/
def populateBpfAsmRuntimeConfig (cwd : GoStr) (directories : runtimeConfigDirectories)
    (configFile : ConfigTomlBpfAsm) (toolchainToml : ToolchainTomlTopLevel)
    (configFileLinux : ConfigTomlLinux) (downloadsFileLinux : DownloadsTomlLinux) :
    Except GoErr runtimeConfigBpfAsm :=
  if populateBpfAsmVersion configFileLinux downloadsFileLinux = [] then
    .error (.errorf "bpf_asm is unable to get the Linux configured version")
  else
    let version := populateBpfAsmVersion configFileLinux downloadsFileLinux
    let pre := gs "bpf_asm-"
    let (toolchainDir, toolchainExecutable, toolchainVersion) :=
      match toolchainToml.BpfAsm with
      | none => ([], [], [])
      | some b =>
        (goJoin [directories.ToolChainDir, pre ++ b.Version], b.Executable, b.Version)
    .ok { Executable := populateBpfAsmExecutable cwd configFile toolchainToml version
          toolchainDir := toolchainDir
          toolchainExecutable := toolchainExecutable
          toolchainVersion := toolchainVersion
          version := version }

/-- The install directory computed by `getBisonConfig`: the versioned
directory `bison-<version>` under the toolchain root. -/
def bisonInstallDir (toolChainDir version : GoStr) : GoStr :=
  goJoin [toolChainDir, gs "bison-" ++ version]

/-- The executable path `BootstrapBison` records after a successful
build: `filepath.Join(installDir, "tests", "bison")` — the full path
under the toolchain directory, not a toolchain-relative one. -/
def bisonRecordedExecutable (toolChainDir version : GoStr) : GoStr :=
  goJoin [bisonInstallDir toolChainDir version, gs "tests", gs "bison"]

/-! ## Bootstrap world model

The per-tool bootstrap orchestrators are embedded as pure functions over
a world of oracles: the filesystem as seen by `os.Stat`/`os.Open`, the
network (a successful download materializes a file), archive
decompression, and subprocess exit status.  Every externally visible
action is recorded as an event. -/

/-- What `os.Stat` reports for a path: the file info the code consumes,
not-exist, or any other stat failure. -/
structure GoFileInfo where
  isDir : Bool := false
  size : Int := 0
  sha256Hex : GoStr := []
deriving DecidableEq

/-- Result of `os.Stat`. -/
inductive StatResult where
  | found (fi : GoFileInfo)
  | notExist
  | statFailure
deriving DecidableEq

/-- The filesystem as a stat oracle. -/
abbrev FileSystemView := GoStr → StatResult

/-- `fileExistsAtPath` (current revision): true only when a filesystem
object exists at the path and it is not a directory; `fs.ErrNotExist`
yields false with no error; any other stat failure propagates. -/
def fileExistsAtPath (fs : FileSystemView) (filePath : GoStr) : Except GoErr Bool :=
  match fs filePath with
  | .found fi => .ok (!fi.isDir)
  | .notExist => .ok false
  | .statFailure => .error .statError

/-- `verifyFileSize`: stat the file and compare sizes; a mismatch is the
formatted fatal error, and stat failures propagate. -/
def verifyFileSize (expectedFileSize : Int) (fs : FileSystemView) (pathToVerify : GoStr) :
    Except GoErr Unit :=
  match fs pathToVerify with
  | .found fi =>
    if fi.size = expectedFileSize then .ok ()
    else .error (.errorf "Expected size EXPECTED found size FOUND")
  | .notExist => .error .notExistError
  | .statFailure => .error .statError

/-- `verifySha256`: hash the file contents and compare hex digests; a
mismatch is the formatted fatal error, and open failures propagate. -/
def verifySha256 (expectedSha256 : GoStr) (fs : FileSystemView) (pathToVerify : GoStr) :
    Except GoErr Unit :=
  match fs pathToVerify with
  | .found fi =>
    if fi.sha256Hex = expectedSha256 then .ok ()
    else .error (.errorf "Expected SHA-256 EXPECTED found SHA-256 FOUND")
  | .notExist => .error .notExistError
  | .statFailure => .error .statError

/-- Externally visible actions of a bootstrap run. -/
inductive BtEvent where
  | httpGet (downloadUrl downloadPath : GoStr)
  | checkedSize (p : GoStr)
  | checkedSha256 (p : GoStr)
  | extracted (archive : GoStr)
  | ranCommand (args : List GoStr) (dir : GoStr)
  | wroteRegistry
  | removedFile (p : GoStr)
deriving DecidableEq

/-- The bootstrap world: stat oracle, network oracle (a successful GET
yields the file info the download materializes), decompression oracle,
subprocess oracle, and the persisted registry. -/
structure BtWorld where
  fs : FileSystemView
  net : GoStr → Option GoFileInfo
  extractOk : GoStr → Bool
  commandOk : List GoStr → GoStr → Bool
  store : ToolchainStore

/-- The outcome of a bootstrap: accumulated messages, final world, event
trace, and the error result (`none` is Go's nil error). -/
structure BtOutcome where
  messages : List String
  world : BtWorld
  events : List BtEvent
  err : Option GoErr

/-- `downloadUrlToDir`: an HTTP GET streamed to a temporary file and
renamed onto the destination only on success; on failure no file appears
at the destination.  Returns the updated world, the emitted events and
the error. -/
def downloadUrlToDir (w : BtWorld) (downloadUrl downloadPath : GoStr) :
    BtWorld × List BtEvent × Option GoErr :=
  match w.net downloadUrl with
  | none => (w, [.httpGet downloadUrl downloadPath], some (.errorf "GET failed"))
  | some fi =>
    ({ w with fs := fun q => if q = downloadPath then .found fi else w.fs q },
     [.httpGet downloadUrl downloadPath], none)

/-- `bpfAsmConfig`: the configuration `getBpfAsmConfig` assembles. -/
structure bpfAsmConfig where
  bisonExecutable : GoStr
  executable : GoStr
  flexExecutable : GoStr
  makePath : GoStr
  toolchainDir : GoStr
  toolchainExecutable : GoStr
  toolchainVersion : GoStr
  version : GoStr
deriving DecidableEq

/-- Resolved Flex configuration (`runtimeConfigFlex`); the toolchain
executable field is written `toolchainExecutable` here regardless of the
Go field's capitalization across revisions. -/
structure runtimeConfigFlex where
  downloadUrlTemplate : GoStr := []
  Executable : GoStr := []
  filenameTemplate : GoStr := []
  files : GoStr → Option runtimeConfigFile := fun _ => none
  toolchainDir : GoStr := []
  toolchainExecutable : GoStr := []
  toolchainVersion : GoStr := []
  version : GoStr := []
  versionedDir : GoStr := []

/-- Resolved Linux kernel-source configuration (`runtimeConfigLinux`). -/
structure runtimeConfigLinux where
  downloadUrlTemplate : GoStr := []
  filenameTemplate : GoStr := []
  files : GoStr → Option runtimeConfigFile := fun _ => none
  toolchainVersion : GoStr := []
  version : GoStr := []

/-- Resolved Cap'n Proto configuration (`runtimeConfigCapnProto`). -/
structure runtimeConfigCapnProto where
  downloadUrlTemplate : GoStr := []
  Executable : GoStr := []
  filenameTemplate : GoStr := []
  files : GoStr → Option runtimeConfigFile := fun _ => none
  toolchainExecutable : GoStr := []
  toolchainVersion : GoStr := []
  version : GoStr := []

/-- The slice of `RuntimeConfigBuildTool` the embedded bootstraps
consume; `nil` pointers are `none`. -/
structure RuntimeConfigBuildTool where
  Directories : Option runtimeConfigDirectories := none
  Bison : Option runtimeConfigBison := none
  BpfAsm : Option runtimeConfigBpfAsm := none
  CapnProto : Option runtimeConfigCapnProto := none
  Flex : Option runtimeConfigFlex := none
  linux : Option runtimeConfigLinux := none

/-- `getBpfAsmConfig`: nil checks, then resolve the Bison and Flex
executables (user value, else toolchain value, else error), the
versioned install directory, the make path and the bpf_asm
executable/toolchain fields. -/
def getBpfAsmConfig (buildToolConfig : RuntimeConfigBuildTool) :
    Except GoErr bpfAsmConfig := do
  let some bison := buildToolConfig.Bison
    | .error (.errorf "buildToolConfig.Bison is nil")
  let some bpfAsm := buildToolConfig.BpfAsm
    | .error (.errorf "buildToolConfig.BpfAsm is nil")
  let some directories := buildToolConfig.Directories
    | .error (.errorf "buildToolConfig.Directories is nil")
  let some flex := buildToolConfig.Flex
    | .error (.errorf "buildToolConfig.Flex is nil")
  let some _ := buildToolConfig.linux
    | .error (.errorf "buildToolConfig.linux is nil")
  let version := bpfAsm.version
  let bisonExecutable ←
    if bison.Executable ≠ [] then pure bison.Executable
    else if bison.toolchainExecutable ≠ [] then pure bison.toolchainExecutable
    else .error (.errorf "Unable to find Bison executable")
  let flexExecutable ←
    if flex.Executable ≠ [] then pure flex.Executable
    else if flex.toolchainExecutable ≠ [] then pure flex.toolchainExecutable
    else .error (.errorf "Unable to find Flex executable")
  let bpfAsmVersionedDir := gs "bpf_asm-" ++ version
  let toolchainDir := goJoin [directories.ToolChainDir, bpfAsmVersionedDir]
  pure { bisonExecutable := bisonExecutable
         executable := bpfAsm.Executable
         flexExecutable := flexExecutable
         makePath := goJoin [toolchainDir, gs "tools", gs "bpf"]
         toolchainDir := toolchainDir
         toolchainExecutable := bpfAsm.toolchainExecutable
         toolchainVersion := bpfAsm.toolchainVersion
         version := version }

/-- `linuxConfig`: the configuration `getLinuxConfig` assembles; its
template expansion is elided, so the result is an input of
`BootstrapBpfAsm`. -/
structure linuxConfig where
  downloadFile : GoStr
  downloadUrl : GoStr
  expectedFileSize : Int
  expectedSha256 : GoStr
deriving DecidableEq

/-- The verification tail of `downloadAndVerifyLinuxTarball`: size check,
then hash check, then the success message; either failure propagates. -/
def verifyLinuxTarballTail (cfg : linuxConfig) (downloadPath : GoStr)
    (messages : List String) (events : List BtEvent) (w : BtWorld) :
    GoStr × List String × List BtEvent × BtWorld × Option GoErr :=
  let events := events ++ [.checkedSize downloadPath]
  match verifyFileSize cfg.expectedFileSize w.fs downloadPath with
  | .error e => ([], messages, events, w, some e)
  | .ok _ =>
    let events := events ++ [.checkedSha256 downloadPath]
    match verifySha256 cfg.expectedSha256 w.fs downloadPath with
    | .error e => ([], messages, events, w, some e)
    | .ok _ =>
      (downloadPath,
       messages ++ ["The download has the correct SHA-256"], events, w, none)

/-- `downloadAndVerifyLinuxTarball`: resolve the Linux download, skip the
network when the file is already cached by name, then verify size and
digest. -/
def downloadAndVerifyLinuxTarball (getLinuxConfigResult : Except GoErr linuxConfig)
    (downloadDir : GoStr) (w : BtWorld) :
    GoStr × List String × List BtEvent × BtWorld × Option GoErr :=
  match getLinuxConfigResult with
  | .error e => ([], ["Failed to get Linux configuration"], [], w, some e)
  | .ok cfg =>
    let downloadPath := goJoin [downloadDir, cfg.downloadFile]
    match fileExistsAtPath w.fs downloadPath with
    | .error e => ([], [], [], w, some e)
    | .ok true =>
      verifyLinuxTarballTail cfg downloadPath
        ["Skipping Linux download because " ++ String.mk downloadPath ++ " exists"]
        [] w
    | .ok false =>
      match downloadUrlToDir w cfg.downloadUrl downloadPath with
      | (w2, events, some e) => ([], [], events, w2, some e)
      | (w2, events, none) => verifyLinuxTarballTail cfg downloadPath [] events w2

/-- The download/extract/build/record phase of `BootstrapBpfAsm`,
entered only when no terminal skip or error applied. -/
def bpfAsmInstallPhase (buildToolConfig : RuntimeConfigBuildTool)
    (bpfAsmCfg : bpfAsmConfig) (getLinuxConfigResult : Except GoErr linuxConfig)
    (w : BtWorld) (messages : List String) : BtOutcome :=
  let directories := buildToolConfig.Directories.getD {}
  let linux := buildToolConfig.linux.getD {}
  match downloadAndVerifyLinuxTarball getLinuxConfigResult directories.DownloadDir w with
  | (_, dlMessages, events, w2, some e) => ⟨messages ++ dlMessages, w2, events, some e⟩
  | (downloadPath, _, events, w2, none) =>
    let commonPre := gs "linux-" ++ linux.version
    let desiredPrefixes := [commonPre ++ gs "/tools/bpf/",
                            commonPre ++ gs "/tools/build/",
                            commonPre ++ gs "/tools/scripts/"]
    let _ := filterLinuxTarXzFactory desiredPrefixes
    let _ := fun filePath => transformLinuxTarXz
      (ensureTrailingSlash bpfAsmCfg.toolchainDir) filePath commonPre.length
    let events := events ++ [.extracted downloadPath]
    if w2.extractOk downloadPath = false then
      ⟨messages ++ ["Failed to extract " ++ String.mk downloadPath], w2, events,
        some (.errorf "extract failed")⟩
    else
      let lexArgs :=
        if bpfAsmCfg.flexExecutable ≠ gs "flex" then
          [gs "LEX=" ++ bpfAsmCfg.flexExecutable] else []
      let yaccArgs :=
        if bpfAsmCfg.bisonExecutable ≠ gs "bison" then
          [gs "YACC=" ++ bpfAsmCfg.bisonExecutable] else []
      let makeArgs := [gs "make"] ++ lexArgs ++ yaccArgs ++ [gs "bpf_asm"]
      let events := events ++ [.ranCommand makeArgs bpfAsmCfg.makePath]
      if w2.commandOk makeArgs bpfAsmCfg.makePath = false then
        ⟨messages, w2, events, some (.errorf "make failed")⟩
      else
        match goRel directories.ToolChainDir (goJoin [bpfAsmCfg.makePath, gs "bpf_asm"]) with
        | none => ⟨messages, w2, events, some (.errorf "filepath.Rel failed")⟩
        | some toolchainTomlExecutable =>
          let store2 := updateBpfAsmToolchainToml w2.store toolchainTomlExecutable
            bpfAsmCfg.version
          ⟨messages, { w2 with store := store2 }, events ++ [.wroteRegistry], none⟩

/-- `BootstrapBpfAsm`: configuration, the user-pinned executable check
(present: terminal skip; absent: fatal, no fallback), the
toolchain-recorded executable check (present with matching version:
terminal skip), then download/verify/extract/build/record. -/
def BootstrapBpfAsm (buildToolConfig : RuntimeConfigBuildTool)
    (getLinuxConfigResult : Except GoErr linuxConfig) (w : BtWorld) : BtOutcome :=
  match getBpfAsmConfig buildToolConfig with
  | .error e => ⟨["Failed to get bpf_asm configuration"], w, [], some e⟩
  | .ok bpfAsmCfg =>
    if bpfAsmCfg.executable ≠ [] then
      match fileExistsAtPath w.fs bpfAsmCfg.executable with
      | .error e => ⟨[], w, [], some e⟩
      | .ok true =>
        ⟨["Skipping download and installation of bpf_asm because "
            ++ String.mk bpfAsmCfg.executable ++ " (from config.toml) exists"],
         w, [], none⟩
      | .ok false =>
        ⟨[], w, [], some (.errorf "User-specified bpf_asm executable does not exist.")⟩
    else if bpfAsmCfg.toolchainExecutable ≠ [] then
      match fileExistsAtPath w.fs bpfAsmCfg.toolchainExecutable with
      | .error e => ⟨[], w, [], some e⟩
      | .ok true =>
        if bpfAsmCfg.version = bpfAsmCfg.toolchainVersion then
          ⟨["Skipping download and installation of bpf_asm because "
              ++ String.mk bpfAsmCfg.toolchainExecutable ++ " (from toolchain) exists"],
           w, [], none⟩
        else
          bpfAsmInstallPhase buildToolConfig bpfAsmCfg getLinuxConfigResult w
            ["The toolchain executable does not match the desired version.  Continuing."]
      | .ok false =>
        bpfAsmInstallPhase buildToolConfig bpfAsmCfg getLinuxConfigResult w []
    else
      bpfAsmInstallPhase buildToolConfig bpfAsmCfg getLinuxConfigResult w []

/-- `flexConfig`: the configuration `getFlexConfig` assembles (current
revision). -/
structure flexConfig where
  downloadFile : GoStr
  downloadUrl : GoStr
  executable : GoStr
  expectedFileSize : Int
  expectedSha256 : GoStr
  toolchainDir : GoStr
  toolchainExecutable : GoStr
  toolchainVersion : GoStr
  version : GoStr
  versionedDir : GoStr
deriving DecidableEq

/-- `getFlexConfig` (current revision): nil checks, the manifest lookup
of the expanded filename (a zero-value hit is the fatal configuration
error), and the assembled fields.  Template expansion is elided; the
expanded filename and download URL are inputs. -/
def getFlexConfig (expandedFilename expandedDownloadUrl : GoStr)
    (buildToolConfig : RuntimeConfigBuildTool) : Except GoErr flexConfig := do
  let some _ := buildToolConfig.Directories
    | .error (.errorf "buildToolConfig.Directories is nil")
  let some flex := buildToolConfig.Flex
    | .error (.errorf "buildToolConfig.Flex is nil")
  let downloadFileInfo := (flex.files expandedFilename).getD {}
  if downloadFileInfo = ({} : runtimeConfigFile) then
    .error (.errorf "File size and SHA-256 not found in downloads.toml")
  else
    pure { downloadFile := expandedFilename
           downloadUrl := expandedDownloadUrl
           executable := flex.Executable
           expectedFileSize := downloadFileInfo.size
           expectedSha256 := downloadFileInfo.sha256
           toolchainDir := flex.toolchainDir
           toolchainExecutable := flex.toolchainExecutable
           toolchainVersion := flex.toolchainVersion
           version := flex.version
           versionedDir := flex.versionedDir }

/-- The download/verify/extract/build/record phase of `BootstrapFlex`. -/
def flexInstallPhase (buildToolConfig : RuntimeConfigBuildTool) (flexCfg : flexConfig)
    (w : BtWorld) (messages : List String) : BtOutcome :=
  let directories := buildToolConfig.Directories.getD {}
  let downloadPath := goJoin [directories.DownloadDir, flexCfg.downloadFile]
  match fileExistsAtPath w.fs downloadPath with
  | .error e => ⟨messages, w, [], some e⟩
  | .ok downloadPathExists =>
    match (if downloadPathExists then
            (messages ++ ["Skipping Flex download because "
              ++ String.mk downloadPath ++ " exists"], w, ([] : List BtEvent), none)
          else
            match downloadUrlToDir w flexCfg.downloadUrl downloadPath with
            | (w2, events, derr) => (messages, w2, events, derr)) with
    | (messages2, w2, events, some e) => ⟨messages2, w2, events, some e⟩
    | (messages2, w2, events, none) =>
      let events := events ++ [.checkedSize downloadPath]
      match verifyFileSize flexCfg.expectedFileSize w2.fs downloadPath with
      | .error e => ⟨messages2, w2, events, some e⟩
      | .ok _ =>
        let events := events ++ [.checkedSha256 downloadPath]
        match verifySha256 flexCfg.expectedSha256 w2.fs downloadPath with
        | .error e => ⟨messages2, w2, events, some e⟩
        | .ok _ =>
          let messages3 := messages2 ++
            [String.mk downloadPath ++ " has the correct SHA-256"]
          let _ := filterFlexTarGzFactory flexCfg.versionedDir
          let _ := fun filePath => transformFlexTarGz directories.ToolChainDir filePath
          let events := events ++ [.extracted downloadPath]
          if w2.extractOk downloadPath = false then
            ⟨messages3 ++ ["Failed to extract " ++ String.mk downloadPath], w2, events,
              some (.errorf "extract failed")⟩
          else
            let events := events ++ [.ranCommand [gs "./configure"] flexCfg.toolchainDir]
            if w2.commandOk [gs "./configure"] flexCfg.toolchainDir = false then
              ⟨messages3, w2, events, some (.errorf "configure failed")⟩
            else
              let events := events ++ [.ranCommand [gs "make"] flexCfg.toolchainDir]
              if w2.commandOk [gs "make"] flexCfg.toolchainDir = false then
                ⟨messages3, w2, events, some (.errorf "make failed")⟩
              else
                let toolchainTomlExecutable :=
                  goJoin [flexCfg.versionedDir, gs "src", gs "flex"]
                let store2 := updateFlexToolchainToml w2.store toolchainTomlExecutable
                  flexCfg.version
                ⟨messages3, { w2 with store := store2 },
                 events ++ [.wroteRegistry], none⟩

/-- `BootstrapFlex` (current revision): configuration, the user-pinned
executable check (present: terminal skip; absent: fatal, no fallback),
the toolchain-recorded executable check (present with matching version:
terminal skip), then the install phase. -/
def BootstrapFlex (expandedFilename expandedDownloadUrl : GoStr)
    (buildToolConfig : RuntimeConfigBuildTool) (w : BtWorld) : BtOutcome :=
  match getFlexConfig expandedFilename expandedDownloadUrl buildToolConfig with
  | .error e => ⟨["Failed to get Flex configuration"], w, [], some e⟩
  | .ok flexCfg =>
    if flexCfg.executable ≠ [] then
      match fileExistsAtPath w.fs flexCfg.executable with
      | .error e => ⟨[], w, [], some e⟩
      | .ok true =>
        ⟨["Skipping download and installation of Flex because "
            ++ String.mk flexCfg.executable ++ " (from config.toml) exists"],
         w, [], none⟩
      | .ok false =>
        ⟨[], w, [], some (.errorf "User-specified Flex executable does not exist.")⟩
    else if flexCfg.toolchainExecutable ≠ [] then
      match fileExistsAtPath w.fs flexCfg.toolchainExecutable with
      | .error e => ⟨[], w, [], some e⟩
      | .ok true =>
        if flexCfg.version = flexCfg.toolchainVersion then
          ⟨["Skipping download and installation of Flex because "
              ++ String.mk flexCfg.toolchainExecutable ++ " (from toolchain) exists"],
           w, [], none⟩
        else
          flexInstallPhase buildToolConfig flexCfg w
            ["The toolchain executable does not match the desired version.  Continuing."]
      | .ok false => flexInstallPhase buildToolConfig flexCfg w []
    else flexInstallPhase buildToolConfig flexCfg w []

/-- `capnProtoConfig`: the configuration `getCapnProtoConfig` assembles. -/
structure capnProtoConfig where
  downloadFile : GoStr
  downloadUrl : GoStr
  executable : GoStr
  expectedFileSize : Int
  expectedSha256 : GoStr
  tarGzDir : GoStr
  toolchainDir : GoStr
  toolchainExecutable : GoStr
  toolchainVersion : GoStr
  version : GoStr
deriving DecidableEq

/-- `getCapnProtoConfig`: nil check, manifest lookup of the expanded
filename (a zero-value hit is the fatal configuration error), versioned
install directory, archive top-level directory, and the executable and
toolchain fields.  Template expansion is elided. -/
def getCapnProtoConfig (expandedFilename expandedDownloadUrl : GoStr)
    (buildToolConfig : RuntimeConfigBuildTool) : Except GoErr capnProtoConfig := do
  let some capnProto := buildToolConfig.CapnProto
    | .error (.errorf "buildToolConfig.CapnProto is nil")
  let downloadFileInfo := (capnProto.files expandedFilename).getD {}
  if downloadFileInfo = ({} : runtimeConfigFile) then
    .error (.errorf "File size and SHA-256 not found in downloads.toml")
  else
    let directories := buildToolConfig.Directories.getD {}
    let capnProtoVersionedDir := gs "capnproto-" ++ capnProto.version
    pure { downloadFile := expandedFilename
           downloadUrl := expandedDownloadUrl
           executable := capnProto.Executable
           expectedFileSize := downloadFileInfo.size
           expectedSha256 := downloadFileInfo.sha256
           tarGzDir := gs "capnproto-c++-" ++ capnProto.version
           toolchainDir := goJoin [directories.ToolChainDir, capnProtoVersionedDir]
           toolchainExecutable := capnProto.toolchainExecutable
           toolchainVersion := capnProto.toolchainVersion
           version := capnProto.version }

/-- `filterCapnProtoTarGz`: a Cap'n Proto archive entry is acceptable
when its path starts with the archive's top-level directory. -/
def filterCapnProtoTarGz (tarGzDir filePath : GoStr) : Bool :=
  stringsHasPrefix filePath tarGzDir

/-- `filterCapnProtoTarGzFactory`: normalizes the archive's top-level
directory to carry a trailing slash before closing over it. -/
def filterCapnProtoTarGzFactory (tarGzDir : GoStr) : GoStr → Bool :=
  fun filePath => filterCapnProtoTarGz (ensureTrailingSlash tarGzDir) filePath

/-- `transformCapnProtoTarGz`: strip the archive's top-level directory
and rebase the remainder under the versioned install directory. -/
def transformCapnProtoTarGz (toolchainDir filePath : GoStr) (prefixLength : Nat) : GoStr :=
  let maxLength := min filePath.length prefixLength
  goJoin [toolchainDir, filePath.drop maxLength]

/-- The download/verify/extract/build/record phase of
`BootstrapCapnProto`. -/
def capnProtoInstallPhase (buildToolConfig : RuntimeConfigBuildTool)
    (cfg : capnProtoConfig) (w : BtWorld) : BtOutcome :=
  let directories := buildToolConfig.Directories.getD {}
  let downloadPath := goJoin [directories.DownloadDir, cfg.downloadFile]
  match fileExistsAtPath w.fs downloadPath with
  | .error e => ⟨[], w, [], some e⟩
  | .ok downloadPathExists =>
    match (if downloadPathExists then
            (["Skipping Cap'n Proto download because "
              ++ String.mk downloadPath ++ " exists"], w, ([] : List BtEvent), none)
          else
            match downloadUrlToDir w cfg.downloadUrl downloadPath with
            | (w2, events, derr) => ([], w2, events, derr)) with
    | (messages2, w2, events, some e) => ⟨messages2, w2, events, some e⟩
    | (messages2, w2, events, none) =>
      let events := events ++ [.checkedSize downloadPath]
      match verifyFileSize cfg.expectedFileSize w2.fs downloadPath with
      | .error e => ⟨messages2, w2, events, some e⟩
      | .ok _ =>
        let events := events ++ [.checkedSha256 downloadPath]
        match verifySha256 cfg.expectedSha256 w2.fs downloadPath with
        | .error e => ⟨messages2, w2, events, some e⟩
        | .ok _ =>
          let messages3 := messages2 ++
            [String.mk downloadPath ++ " has the correct SHA-256"]
          let _ := filterCapnProtoTarGzFactory cfg.tarGzDir
          let _ := fun filePath => transformCapnProtoTarGz
            (ensureTrailingSlash cfg.toolchainDir) filePath cfg.tarGzDir.length
          let events := events ++ [.extracted downloadPath]
          if w2.extractOk downloadPath = false then
            ⟨messages3 ++ ["Failed to extract " ++ String.mk downloadPath], w2, events,
              some (.errorf "extract failed")⟩
          else
            let events := events ++ [.ranCommand [gs "./configure"] cfg.toolchainDir]
            if w2.commandOk [gs "./configure"] cfg.toolchainDir = false then
              ⟨messages3 ++ ["Failed while running ./configure for Cap'n Proto"],
               w2, events, some (.errorf "configure failed")⟩
            else
              let makeArgs := [gs "make", gs "check"]
              let events := events ++ [.ranCommand makeArgs cfg.toolchainDir]
              if w2.commandOk makeArgs cfg.toolchainDir = false then
                ⟨messages3 ++ ["Failed while running make for Cap'n Proto"],
                 w2, events, some (.errorf "make failed")⟩
              else
                let executable := goJoin [cfg.toolchainDir, gs "capnp"]
                let store2 := updateCapnProtoToolchainToml w2.store executable cfg.version
                ⟨messages3, { w2 with store := store2 },
                 events ++ [.wroteRegistry], none⟩

/-- `BootstrapCapnProto`: configuration, a single stat of the effective
executable, the two skip branches (toolchain match, or user-pinned
executable: present skips, absent is fatal), then the install phase. -/
def BootstrapCapnProto (expandedFilename expandedDownloadUrl : GoStr)
    (buildToolConfig : RuntimeConfigBuildTool) (w : BtWorld) : BtOutcome :=
  match getCapnProtoConfig expandedFilename expandedDownloadUrl buildToolConfig with
  | .error e => ⟨["Failed to get Cap'n Proto configuration"], w, [], some e⟩
  | .ok cfg =>
    match fileExistsAtPath w.fs cfg.executable with
    | .error e => ⟨[], w, [], some e⟩
    | .ok exists1 =>
      if cfg.executable = cfg.toolchainExecutable then
        if cfg.version = cfg.toolchainVersion ∧ exists1 = true then
          ⟨["Skipping download and installation of Cap'n Proto because "
              ++ String.mk cfg.executable ++ " exists"], w, [], none⟩
        else capnProtoInstallPhase buildToolConfig cfg w
      else if cfg.executable ≠ [] then
        if exists1 = true then
          ⟨["Skipping download and installation of Cap'n Proto because "
              ++ String.mk cfg.executable ++ " exists"], w, [], none⟩
        else
          ⟨[], w, [],
           some (.errorf "Specified Cap'n Proto executable is outside the toolchain and does not exist.")⟩
      else capnProtoInstallPhase buildToolConfig cfg w

/-! ## Schema code-generation pipeline (GenerateCapnp) -/

/-- `generateCapnpConfig`: the configuration the pipeline consumes. -/
structure generateCapnpConfig where
  capnpDirs : List GoStr
  capnpExecutable : GoStr
  goCapnpExecutable : GoStr
  stdDir : GoStr
deriving DecidableEq

/-- Events of the code-generation pipeline: which files had the schema
compiler run on them, and which had the plugin run on them. -/
inductive GenEvent where
  | compiled (f : GoStr)
  | pluginRan (f : GoStr)
deriving DecidableEq

/-- `codeGeneratorRequestWithCapnp`: run the schema compiler on one file
and capture its standard output; a non-zero exit is the error.  The
`compile` oracle gives the produced bytes, `none` on failure. -/
def codeGeneratorRequestWithCapnp (compile : GoStr → Option GoStr) (capnpFilepath : GoStr) :
    Except GoErr GoStr :=
  match compile capnpFilepath with
  | some bytes => .ok bytes
  | none => .error (.errorf "capnp compile exited non-zero")

/-- `writeGoCapnpFileWithCGR`: pipe the compiled request into the
code-generator plugin run from the schema file's directory; the `plugin`
oracle gives the exit status. -/
def writeGoCapnpFileWithCGR (plugin : GoStr → GoStr → Bool) (capnpFilepath cgr : GoStr) :
    Option GoErr :=
  if plugin capnpFilepath cgr then none else some (.errorf "go-capnp exited non-zero")

/-- `getGlobbedCapnpFilePaths`: glob every configured directory and
concatenate, with the glob oracle supplying each directory's matches. -/
def getGlobbedCapnpFilePaths (glob : GoStr → List GoStr) (config : generateCapnpConfig) :
    List GoStr :=
  (config.capnpDirs.map glob).flatten

/-- The per-file loop of `GenerateCapnp`: a compile failure appends one
message and returns that error for the whole run; the plugin's result is
computed and then discarded, so a plugin failure neither aborts nor adds
a message. -/
def generateCapnpLoop (compile : GoStr → Option GoStr) (plugin : GoStr → GoStr → Bool) :
    List GoStr → List String → List GenEvent →
    List String × List GenEvent × Option GoErr
  | [], messages, events => (messages, events, none)
  | capnpFilepath :: rest, messages, events =>
    let events := events ++ [.compiled capnpFilepath]
    match codeGeneratorRequestWithCapnp compile capnpFilepath with
    | .error e =>
      (messages ++ ["Failed to create CodeGeneratorRequest for file "
        ++ String.mk capnpFilepath], events, some e)
    | .ok cgr =>
      let events := events ++ [.pluginRan capnpFilepath]
      let _ := writeGoCapnpFileWithCGR plugin capnpFilepath cgr
      generateCapnpLoop compile plugin rest messages events

/-- `GenerateCapnp`: glob the schema files and run the two-stage pipeline
on each (the glob error return is not checked by the code). -/
def GenerateCapnp (config : generateCapnpConfig) (glob : GoStr → List GoStr)
    (compile : GoStr → Option GoStr) (plugin : GoStr → GoStr → Bool) :
    List String × List GenEvent × Option GoErr :=
  generateCapnpLoop compile plugin (getGlobbedCapnpFilePaths glob config) [] []

/-- A concrete resolved configuration with user-pinned executables for
bpf_asm and Flex, used by concrete bootstrap scenarios. -/
def btcSample : RuntimeConfigBuildTool :=
  { Directories := some { DownloadDir := gs "/dl", ToolChainDir := gs "/tc" }
    Bison := some { Executable := gs "/usr/bin/bison-user" }
    BpfAsm := some { Executable := gs "/usr/bin/bpf_asm", version := gs "6.6.2" }
    CapnProto := none
    Flex := some { Executable := gs "/usr/bin/flex-user"
                   files := fun f => if f = gs "flex-2.6.4.tar.gz" then
                     some ⟨gs "feedbeef", 5⟩ else none
                   toolchainDir := gs "/tc/flex-2.6.4"
                   version := gs "2.6.4"
                   versionedDir := gs "flex-2.6.4" }
    linux := some { version := gs "6.6.2" } }

/-- The bpf_asm configuration `getBpfAsmConfig` assembles from
`btcSample`. -/
def bpfAsmCfgSample : bpfAsmConfig :=
  { bisonExecutable := gs "/usr/bin/bison-user"
    executable := gs "/usr/bin/bpf_asm"
    flexExecutable := gs "/usr/bin/flex-user"
    makePath := gs "/tc/bpf_asm-6.6.2/tools/bpf"
    toolchainDir := gs "/tc/bpf_asm-6.6.2"
    toolchainExecutable := []
    toolchainVersion := []
    version := gs "6.6.2" }

/-- The Flex configuration `getFlexConfig` assembles from `btcSample`. -/
def flexCfgSample : flexConfig :=
  { downloadFile := gs "flex-2.6.4.tar.gz"
    downloadUrl := gs "https://flex.example/flex-2.6.4.tar.gz"
    executable := gs "/usr/bin/flex-user"
    expectedFileSize := 5
    expectedSha256 := gs "feedbeef"
    toolchainDir := gs "/tc/flex-2.6.4"
    toolchainExecutable := []
    toolchainVersion := []
    version := gs "2.6.4"
    versionedDir := gs "flex-2.6.4" }

/-- A world in which a directory sits at the user-pinned bpf_asm
executable path. -/
def c9WitnessWorld : BtWorld :=
  { fs := fun q => if q = gs "/usr/bin/bpf_asm" then
      .found { isDir := true } else .notExist
    net := fun _ => none
    extractOk := fun _ => false
    commandOk := fun _ _ => false
    store := none }

/-- A world in which both user-pinned executables exist as regular
files. -/
def c6WitnessWorld : BtWorld :=
  { fs := fun q =>
      if q = gs "/usr/bin/bpf_asm" then .found { size := 1 }
      else if q = gs "/usr/bin/flex-user" then .found { size := 2 }
      else .notExist
    net := fun _ => none
    extractOk := fun _ => false
    commandOk := fun _ _ => false
    store := some ⟨["prior"], { TinyGo := some ⟨gs "t", gs "9"⟩ }⟩ }

/-- A world in which neither user-pinned executable exists. -/
def c6MissingWorld : BtWorld :=
  { fs := fun _ => .notExist
    net := fun _ => none
    extractOk := fun _ => false
    commandOk := fun _ _ => false
    store := some ⟨["prior"], { TinyGo := some ⟨gs "t", gs "9"⟩ }⟩ }

/-- The resolved configuration of a run in which bpf_asm is neither
user-pinned nor toolchain-recorded, so the install phase runs. -/
def btcInstall : RuntimeConfigBuildTool :=
  { Directories := some { DownloadDir := gs "/dl", ToolChainDir := gs "/tc" }
    Bison := some { Executable := gs "/usr/bin/bison-user" }
    BpfAsm := some { version := gs "6.6.2" }
    CapnProto := none
    Flex := some { Executable := gs "/usr/bin/flex-user" }
    linux := some { version := gs "6.6.2" } }

/-- The resolved Linux download for that run. -/
def c3LinuxCfg : Except GoErr linuxConfig :=
  .ok { downloadFile := gs "linux-6.6.2.tar.xz"
        downloadUrl := gs "https://cdn.kernel.example/linux-6.6.2.tar.xz"
        expectedFileSize := 9
        expectedSha256 := gs "abcd" }

/-- A world in which the Linux tarball is already cached with the right
size and digest, extraction and make succeed, and the registry holds a
prior Flex record. -/
def c3RunWorld : BtWorld :=
  { fs := fun q => if q = gs "/dl/linux-6.6.2.tar.xz" then
      .found { size := 9, sha256Hex := gs "abcd" } else .notExist
    net := fun _ => none
    extractOk := fun _ => true
    commandOk := fun _ _ => true
    store := some ⟨["prior"], { Flex := some ⟨gs "fx", gs "2.6.4"⟩ }⟩ }

/-- A prior registry holding records for Bison and bpf_asm. -/
def c5Prior : ToolchainStore :=
  some ⟨["p"], { Bison := some ⟨gs "bison-1.0/tests/bison", gs "1.0"⟩,
                 BpfAsm := some ⟨gs "bpf_asm-6.6.1/tools/bpf/bpf_asm", gs "6.6.1"⟩ }⟩

/-- A registry body whose Bison record has a version different from the
effective one. -/
def c4BisonToolchain : ToolchainTomlTopLevel :=
  { Bison := some ⟨gs "/old/bison", gs "1.0"⟩ }

/-- A registry body whose bpf_asm record has a version different from
the effective one. -/
def c4BpfToolchain : ToolchainTomlTopLevel :=
  { BpfAsm := some ⟨gs "/old/bpf_asm", gs "6.6.1"⟩ }

/-- The Bison configuration resolved in the C4 scenario. -/
def c4ResolvedBison : runtimeConfigBison :=
  { downloadUrlTemplate := []
    Executable := gs "/old/bison"
    filenameTemplate := []
    files := fun _ => none
    toolchainDir := gs "bison-1.0"
    toolchainExecutable := gs "/old/bison"
    toolchainVersion := gs "1.0"
    version := gs "3.8.2"
    versionedDir := gs "bison-3.8.2" }

/-- The bpf_asm configuration resolved in the C4 scenario. -/
def c4ResolvedBpfAsm : runtimeConfigBpfAsm :=
  { Executable := []
    toolchainDir := gs "bpf_asm-6.6.1"
    toolchainExecutable := gs "/old/bpf_asm"
    toolchainVersion := gs "6.6.1"
    version := gs "6.6.2" }

/-- The schema files and oracles of the concrete C8 scenario: two globbed
files, the first of which fails to compile. -/
def c8Config : generateCapnpConfig :=
  ⟨[gs "pkg"], gs "capnp", gs "go-capnp", gs "std"⟩

/-- Glob oracle for the C8 scenario. -/
def c8Glob : GoStr → List GoStr := fun _ => [gs "a.capnp", gs "b.capnp"]

/-- Compile oracle for the C8 scenario: `a.capnp` fails, `b.capnp`
succeeds. -/
def c8Compile : GoStr → Option GoStr :=
  fun f => if f = gs "a.capnp" then none else some (gs "cgr")

/-- A resolved configuration for a Cap'n Proto bootstrap whose toolchain
record is at an older version, forcing the install path. -/
def btcCapnProto : RuntimeConfigBuildTool :=
  { Directories := some { DownloadDir := gs "/dl", ToolChainDir := gs "/tc" }
    CapnProto := some { Executable := []
                        files := fun f =>
                          if f = gs "capnproto-c++-1.1.0.tar.gz" then
                            some ⟨gs "cafe", 7⟩ else none
                        toolchainExecutable := gs "/tc/capnproto-1.0.0/capnp"
                        toolchainVersion := gs "1.0.0"
                        version := gs "1.1.0" } }

/-- The Cap'n Proto configuration `getCapnProtoConfig` assembles from
`btcCapnProto`. -/
def c2Cfg : capnProtoConfig :=
  { downloadFile := gs "capnproto-c++-1.1.0.tar.gz"
    downloadUrl := gs "https://capnp.example/capnproto-c++-1.1.0.tar.gz"
    executable := []
    expectedFileSize := 7
    expectedSha256 := gs "cafe"
    tarGzDir := gs "capnproto-c++-1.1.0"
    toolchainDir := gs "/tc/capnproto-1.1.0"
    toolchainExecutable := gs "/tc/capnproto-1.0.0/capnp"
    toolchainVersion := gs "1.0.0"
    version := gs "1.1.0" }

/-- A world whose cached Cap'n Proto download has the wrong size. -/
def c2World : BtWorld :=
  { fs := fun q => if q = gs "/dl/capnproto-c++-1.1.0.tar.gz" then
      .found { size := 3, sha256Hex := gs "beef" } else .notExist
    net := fun _ => none
    extractOk := fun _ => true
    commandOk := fun _ _ => true
    store := some ⟨["prior"], { Bison := some ⟨gs "b", gs "3"⟩ }⟩ }

/-- Characterization lemma for the truncated-prefix comparison in
`filterLinuxTarXz`: an entry is accepted exactly when some desired prefix
either extends the entry path (short entry) or is extended by it. -/
theorem filterLinuxTarXz_accepts_iff (ps : List GoStr) (f : GoStr) :
    filterLinuxTarXz ps f = true ↔
      ∃ p ∈ ps, if f.length < p.length then f <+: p else p <+: f := by
  induction ps with
  | nil => simp [filterLinuxTarXz]
  | cons p rest ih =>
    rw [filterLinuxTarXz]
    simp only [List.mem_cons, exists_eq_or_imp]
    by_cases hlen : f.length < p.length
    · have hmin : min p.length f.length = f.length := by omega
      rw [hmin] at *
      by_cases hacc : stringsHasPrefix f (p.take f.length) = true
      · simp only [hacc, if_true, true_iff]
        left
        have hpre : p.take f.length <+: f :=
          (List.isPrefixOf_iff_prefix).mp hacc
        have hlen2 : (p.take f.length).length = f.length := by
          simp [List.length_take]
          omega
        have heq : p.take f.length = f := List.IsPrefix.eq_of_length hpre hlen2
        rw [if_pos hlen]
        rw [← heq]
        exact List.take_prefix _ _
      · simp only [hacc, if_false, Bool.false_eq_true, ih]
        constructor
        · intro h
          right
          exact h
        · intro h
          rcases h with h | h
          · exfalso
            rw [if_pos hlen] at h
            have : p.take f.length = f := by
              have := List.prefix_iff_eq_take.mp h
              exact this.symm
            rw [stringsHasPrefix, this, List.isPrefixOf_iff_prefix] at hacc
            exact hacc (List.prefix_refl f)
          · exact h
    · have hmin : min p.length f.length = p.length := by omega
      rw [hmin] at *
      rw [List.take_length]
      by_cases hacc : stringsHasPrefix f p = true
      · simp only [hacc, if_true, true_iff]
        left
        rw [if_neg hlen]
        exact (List.isPrefixOf_iff_prefix).mp hacc
      · simp only [hacc, if_false, Bool.false_eq_true, ih]
        constructor
        · intro h
          right
          exact h
        · intro h
          rcases h with h | h
          · exfalso
            rw [if_neg hlen] at h
            rw [stringsHasPrefix, List.isPrefixOf_iff_prefix] at hacc
            exact hacc h
          · exact h

theorem dirShape_osChtimes (fs : ExtractFs) (p : GoStr) (a m : Int) (q : GoStr) :
    dirShape (osChtimes fs p a m q) = dirShape (fs q) := by
  unfold osChtimes
  cases h : fs p with
  | none => rfl
  | some n =>
    unfold setNode
    by_cases hq : q = p
    · subst hq
      simp [dirShape, h]
    · simp [hq]

theorem dirShape_osChmod (fs : ExtractFs) (p : GoStr) (m : Int) (q : GoStr) :
    dirShape (osChmod fs p m q) = dirShape (fs q) := by
  unfold osChmod
  cases h : fs p with
  | none => rfl
  | some n =>
    unfold setNode
    by_cases hq : q = p
    · subst hq
      simp [dirShape, h]
    · simp [hq]

theorem dirShape_touchParent (now : Int) (fs : ExtractFs) (p q : GoStr) :
    dirShape (touchParent now fs p q) = dirShape (fs q) := by
  unfold touchParent
  cases h : fs (parentPath p) with
  | none => rfl
  | some n =>
    unfold setNode
    by_cases hq : q = parentPath p
    · subst hq
      simp [dirShape, h]
    · simp [hq]

theorem osMkdirAll_eq_of_present (now : Int) (fs : ExtractFs) (p : GoStr) (m : Int)
    (n : FsNode) (h : fs p = some n) : osMkdirAll now fs p m = fs := by
  unfold osMkdirAll
  rw [h]

theorem osMkdirAll_self (now : Int) (fs : ExtractFs) (p : GoStr) (m : Int)
    (h : fs p = none) : osMkdirAll now fs p m p = some ⟨true, m, now, now⟩ := by
  unfold osMkdirAll
  rw [h]
  unfold setNode
  simp

theorem dirShape_osMkdirAll_ne (now : Int) (fs : ExtractFs) (p : GoStr) (m : Int)
    (q : GoStr) (hq : q ≠ p) :
    dirShape (osMkdirAll now fs p m q) = dirShape (fs q) := by
  unfold osMkdirAll
  cases h : fs p with
  | some n => rfl
  | none =>
    unfold setNode
    simp only [hq, if_false]
    exact dirShape_touchParent now fs p q

theorem osCreate_self (now : Int) (fs : ExtractFs) (p : GoStr) :
    osCreate now fs p p = some ⟨false, 0, now, now⟩ := by
  unfold osCreate setNode
  simp

theorem dirShape_osCreate_ne (now : Int) (fs : ExtractFs) (p q : GoStr) (hq : q ≠ p) :
    dirShape (osCreate now fs p q) = dirShape (fs q) := by
  unfold osCreate setNode
  simp only [hq, if_false]
  exact dirShape_touchParent now fs p q

/-- Shape of a slot after `osMkdirAll` at that very slot: it is a present
directory provided the slot was not previously a regular file. -/
theorem dirShape_osMkdirAll_self (now : Int) (fs : ExtractFs) (p : GoStr) (m : Int)
    (h : dirShape (fs p) ≠ some false) :
    dirShape (osMkdirAll now fs p m p) = some true := by
  cases hp : fs p with
  | none =>
    rw [osMkdirAll_self now fs p m hp]
    rfl
  | some n =>
    rw [osMkdirAll_eq_of_present now fs p m n hp, hp]
    rw [hp] at h
    cases hd : n.isDir with
    | false =>
      exfalso
      apply h
      simp [dirShape, hd]
    | true => simp [dirShape, hd]

theorem dirRecords_nil (filter : GoStr → Bool) (transform : GoStr → GoStr) :
    dirRecords filter transform [] = [] := rfl

theorem dirRecords_cons (filter : GoStr → Bool) (transform : GoStr → GoStr)
    (e : TarHeader) (rest : List TarHeader) :
    dirRecords filter transform (e :: rest) =
      (if e.Typeflag = .typeDir ∧ filter e.Name = true then
        [⟨transform e.Name, e.AccessTime, e.ModTime⟩] else []) ++
      dirRecords filter transform rest := by
  by_cases hc : e.Typeflag = .typeDir ∧ filter e.Name = true
  · simp [dirRecords, List.filterMap_cons, hc]
  · simp [dirRecords, List.filterMap_cons, hc]

theorem osChtimes_ne (fs : ExtractFs) (p : GoStr) (a m : Int) (q : GoStr) (hq : q ≠ p) :
    osChtimes fs p a m q = fs q := by
  unfold osChtimes
  cases h : fs p with
  | none => rfl
  | some n =>
    unfold setNode
    simp [hq]

theorem osChtimes_self_present (fs : ExtractFs) (p : GoStr) (a m : Int) (n : FsNode)
    (h : fs p = some n) :
    osChtimes fs p a m p = some ⟨n.isDir, n.mode, a, m⟩ := by
  unfold osChtimes
  rw [h]
  unfold setNode
  simp

theorem osChmod_self_present (fs : ExtractFs) (p : GoStr) (m : Int) (n : FsNode)
    (h : fs p = some n) :
    osChmod fs p m p = some ⟨n.isDir, m, n.atime, n.mtime⟩ := by
  unfold osChmod
  rw [h]
  unfold setNode
  simp

/-- Processing a list of entries appends exactly the accepted directory
entries' time records, in order, to the running record list. -/
theorem extractTarLoop_dirTimes (filter : GoStr → Bool) (transform : GoStr → GoStr)
    (now : Int) :
    ∀ (entries : List TarHeader) (s s' : ExtractState),
      extractTarLoop filter transform now entries s = .ok s' →
      s'.dirTimes = s.dirTimes ++ dirRecords filter transform entries := by
  intro entries
  induction entries with
  | nil =>
    intro s s' h
    simp only [extractTarLoop] at h
    injection h with h2
    rw [← h2]
    simp [dirRecords_nil]
  | cons e rest ih =>
    intro s s' h
    rw [dirRecords_cons]
    simp only [extractTarLoop] at h
    split at h
    · next hdir =>
      split at h
      · next hf =>
        have h2 := ih _ _ h
        rw [h2]
        simp [hdir, hf, List.append_assoc]
      · next hf =>
        have h2 := ih _ _ h
        rw [h2]
        have hc : ¬ (e.Typeflag = .typeDir ∧ filter e.Name = true) := fun hc => hf hc.2
        simp [hc]
    · next hndir =>
      have hc : ¬ (e.Typeflag = .typeDir ∧ filter e.Name = true) := fun hc => hndir hc.1
      split at h
      · next hreg =>
        split at h
        · next hf =>
          have h2 := ih _ _ h
          rw [h2]
          simp [hc]
        · next hf =>
          have h2 := ih _ _ h
          rw [h2]
          simp [hc]
      · next hnreg =>
        split at h
        · next hsym =>
          have h2 := ih _ _ h
          rw [h2]
          simp [hc]
        · next hnsym =>
          split at h
          · next hglob =>
            have h2 := ih _ _ h
            rw [h2]
            simp [hc]
          · cases h

/-- Invariant of the entry loop: protected paths (in practice, the
transformed directory-entry paths) never hold a regular file, and every
accumulated directory-time record refers to a protected path that holds
a directory, provided accepted regular files never land on a protected
path and accepted directories always do. -/
theorem extractTarLoop_invariant (filter : GoStr → Bool) (transform : GoStr → GoStr)
    (now : Int) (P : GoStr → Prop) :
    ∀ (entries : List TarHeader) (s s' : ExtractState),
      extractTarLoop filter transform now entries s = .ok s' →
      (∀ e, e ∈ entries → e.Typeflag = .typeReg → filter e.Name = true →
        ¬ P (transform e.Name)) →
      (∀ e, e ∈ entries → e.Typeflag = .typeDir → filter e.Name = true →
        P (transform e.Name)) →
      (∀ p, P p → dirShape (s.fs p) ≠ some false) →
      (∀ d, d ∈ s.dirTimes → P d.dirName ∧ dirShape (s.fs d.dirName) = some true) →
      (∀ p, P p → dirShape (s'.fs p) ≠ some false) ∧
      (∀ d, d ∈ s'.dirTimes → P d.dirName ∧ dirShape (s'.fs d.dirName) = some true) := by
  intro entries
  induction entries with
  | nil =>
    intro s s' h hacc hrecP hP hrec
    simp only [extractTarLoop] at h
    injection h with h2
    rw [← h2]
    exact ⟨hP, hrec⟩
  | cons e rest ih =>
    intro s s' h hacc hrecP hP hrec
    have haccR : ∀ x, x ∈ rest → x.Typeflag = .typeReg → filter x.Name = true →
        ¬ P (transform x.Name) :=
      fun x hx => hacc x (List.mem_cons_of_mem e hx)
    have hrecPR : ∀ x, x ∈ rest → x.Typeflag = .typeDir → filter x.Name = true →
        P (transform x.Name) :=
      fun x hx => hrecP x (List.mem_cons_of_mem e hx)
    simp only [extractTarLoop] at h
    split at h
    · next hdir =>
      split at h
      · next hf =>
        have hPdir : P (transform e.Name) := hrecP e (List.mem_cons_self e rest) hdir hf
        have hself : dirShape (osMkdirAll now s.fs (transform e.Name) e.Mode
            (transform e.Name)) = some true :=
          dirShape_osMkdirAll_self now s.fs (transform e.Name) e.Mode (hP _ hPdir)
        refine ih _ _ h haccR hrecPR ?_ ?_
        · intro p hp
          by_cases hpe : p = transform e.Name
          · subst hpe
            rw [hself]
            simp
          · rw [dirShape_osMkdirAll_ne now s.fs (transform e.Name) e.Mode p hpe]
            exact hP p hp
        · intro d hd
          simp only [List.mem_append, List.mem_singleton] at hd
          rcases hd with hd | hd
          · rcases hrec d hd with ⟨hPd, hsh⟩
            refine ⟨hPd, ?_⟩
            by_cases hpe : d.dirName = transform e.Name
            · rw [hpe]
              exact hself
            · rw [dirShape_osMkdirAll_ne now s.fs (transform e.Name) e.Mode _ hpe]
              exact hsh
          · subst hd
            exact ⟨hPdir, hself⟩
      · next hf =>
        exact ih _ _ h haccR hrecPR hP hrec
    · next hndir =>
      split at h
      · next hreg =>
        split at h
        · next hf =>
          have hnP : ¬ P (transform e.Name) :=
            hacc e (List.mem_cons_self e rest) hreg hf
          have hshape : ∀ q, q ≠ transform e.Name →
              dirShape ((osChtimes (osChmod (osCreate now s.fs (transform e.Name))
                (transform e.Name) e.Mode) (transform e.Name) e.AccessTime e.ModTime) q)
              = dirShape (s.fs q) := by
            intro q hq
            rw [dirShape_osChtimes, dirShape_osChmod,
              dirShape_osCreate_ne now s.fs (transform e.Name) q hq]
          refine ih _ _ h haccR hrecPR ?_ ?_
          · intro p hp
            have hne : p ≠ transform e.Name := fun hc => hnP (hc ▸ hp)
            rw [hshape p hne]
            exact hP p hp
          · intro d hd
            rcases hrec d hd with ⟨hPd, hsh⟩
            have hne : d.dirName ≠ transform e.Name := fun hc => hnP (hc ▸ hPd)
            refine ⟨hPd, ?_⟩
            rw [hshape _ hne]
            exact hsh
        · next hf =>
          exact ih _ _ h haccR hrecPR hP hrec
      · next hnreg =>
        split at h
        · next hsym =>
          exact ih _ _ h haccR hrecPR hP hrec
        · next hnsym =>
          split at h
          · next hglob =>
            exact ih _ _ h haccR hrecPR hP hrec
          · cases h

theorem restoreDirTimes_cons (r : dirTime) (rs : List dirTime) (fs : ExtractFs) :
    restoreDirTimes (r :: rs) fs =
      restoreDirTimes rs (osChtimes fs r.dirName r.accessTime r.modificationTime) := rfl

theorem restoreDirTimes_not_mem :
    ∀ (rs : List dirTime) (fs : ExtractFs) (q : GoStr),
      (∀ r, r ∈ rs → r.dirName ≠ q) → restoreDirTimes rs fs q = fs q := by
  intro rs
  induction rs with
  | nil => intro fs q _; rfl
  | cons r rest ih =>
    intro fs q hq
    rw [restoreDirTimes_cons]
    rw [ih _ q (fun x hx => hq x (List.mem_cons_of_mem r hx))]
    exact osChtimes_ne fs r.dirName r.accessTime r.modificationTime q
      (fun hc => hq r (List.mem_cons_self r rest) hc.symm)

/-- Applying the deferred directory-time pass sets each recorded
directory's times to its recorded values, preserving the node's kind and
mode, as long as no two records name the same path. -/
theorem restoreDirTimes_eval :
    ∀ (rs : List dirTime) (fs : ExtractFs) (d : dirTime) (n : FsNode),
      d ∈ rs → (rs.map dirTime.dirName).Nodup → fs d.dirName = some n →
      restoreDirTimes rs fs d.dirName =
        some ⟨n.isDir, n.mode, d.accessTime, d.modificationTime⟩ := by
  intro rs
  induction rs with
  | nil => intro fs d n hd; cases hd
  | cons r rest ih =>
    intro fs d n hd hnodup hfs
    rw [List.map_cons, List.nodup_cons] at hnodup
    rcases hnodup with ⟨hhead, htail⟩
    rw [restoreDirTimes_cons]
    rcases List.mem_cons.mp hd with hdr | hdmem
    · subst hdr
      have hset : osChtimes fs d.dirName d.accessTime d.modificationTime d.dirName =
          some ⟨n.isDir, n.mode, d.accessTime, d.modificationTime⟩ :=
        osChtimes_self_present fs d.dirName d.accessTime d.modificationTime n hfs
      rw [restoreDirTimes_not_mem rest _ d.dirName
        (fun x hx hc => hhead (hc ▸ List.mem_map_of_mem dirTime.dirName hx))]
      exact hset
    · have hne : d.dirName ≠ r.dirName := by
        intro hc
        exact hhead (hc ▸ List.mem_map_of_mem dirTime.dirName hdmem)
      have hkeep : osChtimes fs r.dirName r.accessTime r.modificationTime d.dirName =
          some n := by
        rw [osChtimes_ne fs r.dirName r.accessTime r.modificationTime d.dirName hne]
        exact hfs
      exact ih _ d n hdmem htail hkeep

/-- Membership characterization of the directory-time records. -/
theorem mem_dirRecords_iff (filter : GoStr → Bool) (transform : GoStr → GoStr)
    (entries : List TarHeader) (d : dirTime) :
    d ∈ dirRecords filter transform entries ↔
      ∃ e, e ∈ entries ∧ e.Typeflag = .typeDir ∧ filter e.Name = true ∧
        d = ⟨transform e.Name, e.AccessTime, e.ModTime⟩ := by
  unfold dirRecords
  rw [List.mem_filterMap]
  refine exists_congr fun e => ?_
  constructor
  · rintro ⟨he, hfe⟩
    split at hfe
    · next hc =>
      injection hfe with h2
      exact ⟨he, hc.1, hc.2, h2.symm⟩
    · cases hfe
  · rintro ⟨he, hdir, hf, hd⟩
    refine ⟨he, ?_⟩
    rw [if_pos ⟨hdir, hf⟩, hd]

/-- C7: for every archive whose entries all pass the filter, after
`extractTar` completes each created directory's modification (and access)
time equals the time recorded in its archive entry — directory timestamps
are applied after all entries, in reverse creation order, so file writes
that bump a directory's modification time are corrected — while a regular
file's node carries its recorded times immediately after its entry is
processed.  Hypotheses: extraction succeeded, the destination held no
regular files beforehand, distinct directory entries map to distinct
destination paths, and no file entry maps onto a directory entry's path. -/
theorem c7_extractTar_restores_directory_times
    (filter : GoStr → Bool) (transform : GoStr → GoStr) (now : Int)
    (entries : List TarHeader) (fs0 fsF : ExtractFs)
    (hok : extractTar filter transform now entries fs0 = .ok fsF)
    (hfresh : ∀ p, dirShape (fs0 p) ≠ some false)
    (hnodup : ((dirRecords filter transform entries).map dirTime.dirName).Nodup)
    (hdisj : ∀ ed ∈ entries, ∀ er ∈ entries, ed.Typeflag = .typeDir →
      er.Typeflag = .typeReg → filter ed.Name = true → filter er.Name = true →
      transform ed.Name ≠ transform er.Name) :
    (∀ e, e ∈ entries → e.Typeflag = .typeDir → filter e.Name = true →
      ∃ n, fsF (transform e.Name) = some n ∧ n.isDir = true ∧
        n.atime = e.AccessTime ∧ n.mtime = e.ModTime) ∧
    (∀ (s : ExtractState) (e : TarHeader), e.Typeflag = .typeReg →
      filter e.Name = true →
      ∃ s2, extractTarLoop filter transform now [e] s = .ok s2 ∧
        s2.fs (transform e.Name) = some ⟨false, e.Mode, e.AccessTime, e.ModTime⟩) := by
  constructor
  · unfold extractTar at hok
    cases hloop : extractTarLoop filter transform now entries ⟨fs0, []⟩ with
    | error msg =>
      rw [hloop] at hok
      cases hok
    | ok s1 =>
      rw [hloop] at hok
      injection hok with hok2
      have hdt : s1.dirTimes = dirRecords filter transform entries := by
        have := extractTarLoop_dirTimes filter transform now entries _ _ hloop
        simpa using this
      have hacc : ∀ e, e ∈ entries → e.Typeflag = .typeReg → filter e.Name = true →
          ¬ (transform e.Name) ∈
            (dirRecords filter transform entries).map dirTime.dirName := by
        intro e he hreg hf hmem
        rcases List.mem_map.mp hmem with ⟨d, hd, hdn⟩
        rcases (mem_dirRecords_iff filter transform entries d).mp hd with
          ⟨ed, hed, hdir, hfd, hdval⟩
        have : transform ed.Name = transform e.Name := by
          rw [hdval] at hdn
          exact hdn
        exact hdisj ed hed e he hdir hreg hfd hf this
      have hrecP : ∀ e, e ∈ entries → e.Typeflag = .typeDir → filter e.Name = true →
          (transform e.Name) ∈
            (dirRecords filter transform entries).map dirTime.dirName := by
        intro e he hdir hf
        refine List.mem_map.mpr ⟨⟨transform e.Name, e.AccessTime, e.ModTime⟩, ?_, rfl⟩
        exact (mem_dirRecords_iff filter transform entries _).mpr ⟨e, he, hdir, hf, rfl⟩
      have hinv := extractTarLoop_invariant filter transform now
        (fun p => p ∈ (dirRecords filter transform entries).map dirTime.dirName)
        entries _ _ hloop hacc hrecP (fun p _ => hfresh p) (by intro d hd; cases hd)
      intro e he hdir hf
      have hd : (⟨transform e.Name, e.AccessTime, e.ModTime⟩ : dirTime) ∈ s1.dirTimes := by
        rw [hdt]
        exact (mem_dirRecords_iff filter transform entries _).mpr ⟨e, he, hdir, hf, rfl⟩
      rcases hinv.2 _ hd with ⟨_, hsh⟩
      cases hn0 : s1.fs (transform e.Name) with
      | none =>
        rw [hn0] at hsh
        cases hsh
      | some n0 =>
        have hn0dir : n0.isDir = true := by
          rw [hn0] at hsh
          simpa [dirShape] using hsh
        have hmemrev : (⟨transform e.Name, e.AccessTime, e.ModTime⟩ : dirTime)
            ∈ s1.dirTimes.reverse := List.mem_reverse.mpr hd
        have hres := restoreDirTimes_eval s1.dirTimes.reverse s1.fs
          ⟨transform e.Name, e.AccessTime, e.ModTime⟩ n0 hmemrev
          (by rw [List.map_reverse]; exact List.nodup_reverse.mpr (hdt ▸ hnodup)) hn0
        rw [← hok2]
        exact ⟨⟨n0.isDir, n0.mode, e.AccessTime, e.ModTime⟩, hres, hn0dir, rfl, rfl⟩
  · intro s e hreg hf
    have hloop1 : extractTarLoop filter transform now [e] s =
        .ok ⟨osChtimes (osChmod (osCreate now s.fs (transform e.Name))
          (transform e.Name) e.Mode) (transform e.Name) e.AccessTime e.ModTime,
          s.dirTimes⟩ := by
      simp [extractTarLoop, hreg, hf]
    refine ⟨_, hloop1, ?_⟩
    have h1 := osCreate_self now s.fs (transform e.Name)
    have h2 := osChmod_self_present (osCreate now s.fs (transform e.Name))
      (transform e.Name) e.Mode _ h1
    have h3 := osChtimes_self_present
      (osChmod (osCreate now s.fs (transform e.Name)) (transform e.Name) e.Mode)
      (transform e.Name) e.AccessTime e.ModTime _ h2
    exact h3

/-- In the earlier reject-as-error revision, once an entry fails the
filter the loop's result does not depend on the entries after it. -/
theorem extractTarGzRejectLoop_stops (filter : GoStr → Bool) (transform : GoStr → GoStr)
    (now : Int) (e : TarHeader) (hrej : filter e.Name = false)
    (hty : e.Typeflag = .typeDir ∨ e.Typeflag = .typeReg) :
    ∀ (pre post : List TarHeader) (s : ExtractState),
      extractTarGzRejectLoop filter transform now (pre ++ e :: post) s
        = extractTarGzRejectLoop filter transform now (pre ++ [e]) s := by
  intro pre
  induction pre with
  | nil =>
    intro post s
    rcases hty with h | h
    · simp [extractTarGzRejectLoop, h, hrej]
    · simp [extractTarGzRejectLoop, h, hrej]
  | cons hd tl ih =>
    intro post s
    simp only [List.cons_append, extractTarGzRejectLoop]
    by_cases h1 : hd.Typeflag = .typeDir
    · by_cases h2 : filter hd.Name = true
      · simp only [h1, h2, if_true]
        exact ih post _
      · simp [h1, h2]
    · by_cases h3 : hd.Typeflag = .typeReg
      · by_cases h2 : filter hd.Name = true
        · simp only [h1, h3, h2, if_true, if_false]
          exact ih post _
        · simp [h1, h3, h2]
      · simp [h1, h3]

/-- In the earlier reject-as-error revision, a list ending in a rejected
entry always produces an error. -/
theorem extractTarGzRejectLoop_err (filter : GoStr → Bool) (transform : GoStr → GoStr)
    (now : Int) (e : TarHeader) (hrej : filter e.Name = false)
    (hty : e.Typeflag = .typeDir ∨ e.Typeflag = .typeReg) :
    ∀ (pre : List TarHeader) (s : ExtractState),
      ∃ msg, extractTarGzRejectLoop filter transform now (pre ++ [e]) s = .error msg := by
  intro pre
  induction pre with
  | nil =>
    intro s
    rcases hty with h | h
    · refine ⟨"Directory in archive has unexpected path", ?_⟩
      simp [extractTarGzRejectLoop, h, hrej]
    · refine ⟨"File in archive has unexpected path", ?_⟩
      simp [extractTarGzRejectLoop, h, hrej]
  | cons hd tl ih =>
    intro s
    simp only [List.cons_append, extractTarGzRejectLoop]
    by_cases h1 : hd.Typeflag = .typeDir
    · by_cases h2 : filter hd.Name = true
      · simp only [h1, h2, if_true]
        exact ih _
      · refine ⟨"Directory in archive has unexpected path", ?_⟩
        simp [h1, h2]
    · by_cases h3 : hd.Typeflag = .typeReg
      · by_cases h2 : filter hd.Name = true
        · simp only [h1, h3, h2, if_true, if_false]
          exact ih _
        · refine ⟨"File in archive has unexpected path", ?_⟩
          simp [h1, h3, h2]
      · refine ⟨"Unexpected type in tar header", ?_⟩
        simp [h1, h3]

/-- C1 (counterexample): with Flex's filter/transform pair — one of the
call sites the claim says is configured in reject mode — the current
`extractTar` does NOT return an error on an entry outside the expected
versioned prefix: it succeeds, writes nothing for the rejected entry, and
goes on to process the following entry. -/
theorem c1_counterexample_current_extractTar_skips :
    c1Result.isOk = true ∧
    extractResultAt c1Result (gs "/tc/evil.txt") = some none ∧
    extractResultAt c1Result (gs "/tc/flex-2.6.4/a")
      = some (some ⟨false, 420, 3, 4⟩) := by
  refine ⟨?_, ?_, ?_⟩ <;> decide

/-- C1 (amended): in the earlier `extractTarGz` revision the reject
semantics do hold: an entry whose path fails the filter makes extraction
return an error, and the result does not depend on (so does not process)
any entry after the rejected one.  The current shared `extractTar`
instead silently skips such entries at every call site. -/
theorem c1_amended_reject_revision_fails_fast
    (filter : GoStr → Bool) (transform : GoStr → GoStr) (now : Int)
    (fs0 : ExtractFs) (pre post : List TarHeader) (e : TarHeader)
    (hrej : filter e.Name = false)
    (hty : e.Typeflag = .typeDir ∨ e.Typeflag = .typeReg) :
    (∃ msg, extractTarGzReject filter transform now (pre ++ e :: post) fs0
      = .error msg) ∧
    extractTarGzReject filter transform now (pre ++ e :: post) fs0
      = extractTarGzReject filter transform now (pre ++ [e]) fs0 := by
  have hstop := extractTarGzRejectLoop_stops filter transform now e hrej hty
    pre post ⟨fs0, []⟩
  rcases extractTarGzRejectLoop_err filter transform now e hrej hty pre ⟨fs0, []⟩ with
    ⟨msg, hmsg⟩
  unfold extractTarGzReject
  rw [hstop, hmsg]
  exact ⟨⟨msg, rfl⟩, rfl⟩

/-- Witness for the amended C1 theorem at a concrete archive: Flex's
filter in the reject revision errors out on the out-of-prefix first entry
and the outcome ignores the well-formed entry after it. -/
theorem c1_amended_witness :
    (∃ msg, extractTarGzReject (filterFlexTarGzFactory (gs "flex-2.6.4"))
        (transformFlexTarGz (gs "/tc")) 100 c1Entries emptyFs = .error msg) ∧
    extractTarGzReject (filterFlexTarGzFactory (gs "flex-2.6.4"))
        (transformFlexTarGz (gs "/tc")) 100 c1Entries emptyFs
      = extractTarGzReject (filterFlexTarGzFactory (gs "flex-2.6.4"))
        (transformFlexTarGz (gs "/tc")) 100
        ([] ++ [⟨.typeReg, gs "evil.txt", 420, 1, 2⟩]) emptyFs :=
  c1_amended_reject_revision_fails_fast
    (filterFlexTarGzFactory (gs "flex-2.6.4")) (transformFlexTarGz (gs "/tc")) 100
    emptyFs [] [⟨.typeReg, gs "flex-2.6.4/a", 420, 3, 4⟩]
    ⟨.typeReg, gs "evil.txt", 420, 1, 2⟩ (by decide) (Or.inr rfl)

/-- Witness for the C7 theorem: on the concrete two-entry archive the
extracted directory's final modification time is the recorded 10, not the
wall-clock 100 at which the file creation bumped it. -/
theorem c7_witness :
    ∃ n, c7WitnessFs (gs "/tc/flex-2.6.4") = some n ∧ n.isDir = true ∧
      n.atime = 10 ∧ n.mtime = 10 := by
  have h := c7_extractTar_restores_directory_times
    (filterFlexTarGzFactory (gs "flex-2.6.4")) (transformFlexTarGz (gs "/tc")) 100
    c7WitnessEntries emptyFs c7WitnessFs rfl
    (by intro p h; simp [emptyFs, dirShape] at h)
    (by decide) (by decide)
  have h2 := h.1 ⟨.typeDir, gs "flex-2.6.4/", 493, 10, 10⟩ (by decide) rfl (by decide)
  have heq : transformFlexTarGz (gs "/tc") (gs "flex-2.6.4/") = gs "/tc/flex-2.6.4" := by
    decide
  rw [heq] at h2
  exact h2

/-- C10: the kernel-source extraction filter accepts an entry path by
comparing it against each desired prefix truncated to the shorter of the
two lengths, so an entry path shorter than a desired prefix is accepted
exactly when the path is itself a prefix of that desired prefix — every
ancestor directory of the desired subtrees is accepted, and so is a short
path that merely starts a desired prefix, such as
"linux-6.6.2/tools/b". -/
theorem c10_filterLinuxTarXz_truncated_prefix_acceptance :
    (∀ (ps : List GoStr) (f : GoStr),
      filterLinuxTarXz ps f = true ↔
        ∃ p ∈ ps, if f.length < p.length then f <+: p else p <+: f) ∧
    filterLinuxTarXzFactory
      [gs "linux-6.6.2/tools/bpf/", gs "linux-6.6.2/tools/build/",
       gs "linux-6.6.2/tools/scripts/"] (gs "linux-6.6.2/tools/b") = true ∧
    filterLinuxTarXzFactory
      [gs "linux-6.6.2/tools/bpf/", gs "linux-6.6.2/tools/build/",
       gs "linux-6.6.2/tools/scripts/"] (gs "linux-6.6.2/") = true :=
  ⟨filterLinuxTarXz_accepts_iff, by decide, by decide⟩

/-- C9: `fileExistsAtPath` returns true exactly when a filesystem object
exists at the path and is not a directory; a directory yields false with
no error, so the user-pinned skip decision in `BootstrapBpfAsm` treats a
directory at the configured executable path as "not installed" and fails
rather than skipping. -/
theorem c9_fileExistsAtPath_excludes_directories :
    (∀ (fs : FileSystemView) (p : GoStr),
      fileExistsAtPath fs p = .ok true ↔
        ∃ fi, fs p = .found fi ∧ fi.isDir = false) ∧
    (∀ (fs : FileSystemView) (p : GoStr) (fi : GoFileInfo),
      fs p = .found fi → fi.isDir = true → fileExistsAtPath fs p = .ok false) ∧
    (∀ (buildToolConfig : RuntimeConfigBuildTool)
       (glcr : Except GoErr linuxConfig) (w : BtWorld)
       (cfg : bpfAsmConfig) (fi : GoFileInfo),
      getBpfAsmConfig buildToolConfig = .ok cfg →
      cfg.executable ≠ [] →
      w.fs cfg.executable = .found fi → fi.isDir = true →
      (BootstrapBpfAsm buildToolConfig glcr w).err
        = some (.errorf "User-specified bpf_asm executable does not exist.") ∧
      (BootstrapBpfAsm buildToolConfig glcr w).events = []) := by
  refine ⟨?_, ?_, ?_⟩
  · intro fs p
    constructor
    · intro h
      cases hfs : fs p with
      | found fi =>
        refine ⟨fi, rfl, ?_⟩
        unfold fileExistsAtPath at h
        rw [hfs] at h
        injection h with h2
        cases hdir : fi.isDir with
        | false => rfl
        | true =>
          rw [hdir] at h2
          cases h2
      | notExist =>
        unfold fileExistsAtPath at h
        rw [hfs] at h
        cases h
      | statFailure =>
        unfold fileExistsAtPath at h
        rw [hfs] at h
        cases h
    · rintro ⟨fi, hfs, hdir⟩
      simp [fileExistsAtPath, hfs, hdir]
  · intro fs p fi hfs hdir
    simp [fileExistsAtPath, hfs, hdir]
  · intro buildToolConfig glcr w cfg fi hcfg hne hfs hdir
    have hfe : fileExistsAtPath w.fs cfg.executable = .ok false := by
      simp [fileExistsAtPath, hfs, hdir]
    unfold BootstrapBpfAsm
    simp only [hcfg]
    rw [if_pos hne, hfe]
    exact ⟨rfl, rfl⟩

/-- Witness for C9: with a directory at the configured bpf_asm executable
path, `fileExistsAtPath` answers false and the bootstrap fails instead of
skipping. -/
theorem c9_witness :
    (BootstrapBpfAsm btcSample (.error .statError) c9WitnessWorld).err
      = some (.errorf "User-specified bpf_asm executable does not exist.") ∧
    (BootstrapBpfAsm btcSample (.error .statError) c9WitnessWorld).events = [] ∧
    fileExistsAtPath c9WitnessWorld.fs (gs "/usr/bin/bpf_asm") = .ok false := by
  have h := c9_fileExistsAtPath_excludes_directories
  have h3 := h.2.2 btcSample (.error .statError) c9WitnessWorld bpfAsmCfgSample
    { isDir := true } rfl (by decide) (by decide) rfl
  exact ⟨h3.1, h3.2, h.2.1 c9WitnessWorld.fs (gs "/usr/bin/bpf_asm")
    { isDir := true } (by decide) rfl⟩

/-- C6: for bpf_asm and Flex, a non-empty user-specified executable is
terminal: if the file exists the bootstrap succeeds with no events (no
network request, no extraction, no subprocess) and the world — registry
included — is untouched; if it does not exist the bootstrap fails the
same way, with no fallback to downloading. -/
theorem c6_user_pinned_executable_is_terminal
    (buildToolConfig : RuntimeConfigBuildTool) (glcr : Except GoErr linuxConfig)
    (ef eu : GoStr) (w wf : BtWorld) (cfg : bpfAsmConfig) (fcfg : flexConfig)
    (hcfg : getBpfAsmConfig buildToolConfig = .ok cfg)
    (hne : cfg.executable ≠ [])
    (hfcfg : getFlexConfig ef eu buildToolConfig = .ok fcfg)
    (hfne : fcfg.executable ≠ []) :
    (fileExistsAtPath w.fs cfg.executable = .ok true →
      (BootstrapBpfAsm buildToolConfig glcr w).events = [] ∧
      (BootstrapBpfAsm buildToolConfig glcr w).world = w ∧
      (BootstrapBpfAsm buildToolConfig glcr w).err = none) ∧
    (fileExistsAtPath w.fs cfg.executable = .ok false →
      (BootstrapBpfAsm buildToolConfig glcr w).events = [] ∧
      (BootstrapBpfAsm buildToolConfig glcr w).world = w ∧
      (BootstrapBpfAsm buildToolConfig glcr w).err
        = some (.errorf "User-specified bpf_asm executable does not exist.")) ∧
    (fileExistsAtPath wf.fs fcfg.executable = .ok true →
      (BootstrapFlex ef eu buildToolConfig wf).events = [] ∧
      (BootstrapFlex ef eu buildToolConfig wf).world = wf ∧
      (BootstrapFlex ef eu buildToolConfig wf).err = none) ∧
    (fileExistsAtPath wf.fs fcfg.executable = .ok false →
      (BootstrapFlex ef eu buildToolConfig wf).events = [] ∧
      (BootstrapFlex ef eu buildToolConfig wf).world = wf ∧
      (BootstrapFlex ef eu buildToolConfig wf).err
        = some (.errorf "User-specified Flex executable does not exist.")) := by
  refine ⟨?_, ?_, ?_, ?_⟩
  · intro hex
    unfold BootstrapBpfAsm
    simp only [hcfg]
    rw [if_pos hne, hex]
    exact ⟨rfl, rfl, rfl⟩
  · intro hex
    unfold BootstrapBpfAsm
    simp only [hcfg]
    rw [if_pos hne, hex]
    exact ⟨rfl, rfl, rfl⟩
  · intro hex
    unfold BootstrapFlex
    simp only [hfcfg]
    rw [if_pos hfne, hex]
    exact ⟨rfl, rfl, rfl⟩
  · intro hex
    unfold BootstrapFlex
    simp only [hfcfg]
    rw [if_pos hfne, hex]
    exact ⟨rfl, rfl, rfl⟩

/-- Witness for C6 at concrete inputs: present pinned executables skip
with the world untouched; missing ones fail with the world untouched. -/
theorem c6_witness :
    ((BootstrapBpfAsm btcSample (.error .statError) c6WitnessWorld).events = [] ∧
     (BootstrapBpfAsm btcSample (.error .statError) c6WitnessWorld).world
       = c6WitnessWorld ∧
     (BootstrapBpfAsm btcSample (.error .statError) c6WitnessWorld).err = none) ∧
    ((BootstrapFlex (gs "flex-2.6.4.tar.gz") (gs "https://flex.example/flex-2.6.4.tar.gz")
        btcSample c6MissingWorld).events = [] ∧
     (BootstrapFlex (gs "flex-2.6.4.tar.gz") (gs "https://flex.example/flex-2.6.4.tar.gz")
        btcSample c6MissingWorld).world = c6MissingWorld ∧
     (BootstrapFlex (gs "flex-2.6.4.tar.gz") (gs "https://flex.example/flex-2.6.4.tar.gz")
        btcSample c6MissingWorld).err
       = some (.errorf "User-specified Flex executable does not exist.")) := by
  constructor
  · exact (c6_user_pinned_executable_is_terminal btcSample (.error .statError)
      (gs "flex-2.6.4.tar.gz") (gs "https://flex.example/flex-2.6.4.tar.gz")
      c6WitnessWorld c6WitnessWorld bpfAsmCfgSample flexCfgSample
      rfl (by decide) rfl (by decide)).1 rfl
  · exact (c6_user_pinned_executable_is_terminal btcSample (.error .statError)
      (gs "flex-2.6.4.tar.gz") (gs "https://flex.example/flex-2.6.4.tar.gz")
      c6MissingWorld c6MissingWorld bpfAsmCfgSample flexCfgSample
      rfl (by decide) rfl (by decide)).2.2.2 rfl

/-- C3 (counterexample): starting from a registry whose Bison record is
`{bison-1.0/tests/bison, 1.0}`, a successful Bison bootstrap at effective
version 3.8.2 records the full path under the toolchain directory (not
the toolchain-relative `bison-3.8.2/tests/bison`) and leaves the stale
version 1.0 in place. -/
theorem c3_counterexample_bison_full_path_no_version :
    updateBisonToolchainToml
        (WriteToolchainToml { Bison := some ⟨gs "bison-1.0/tests/bison", gs "1.0"⟩ })
        (bisonRecordedExecutable (gs "/tc") (gs "3.8.2"))
      = WriteToolchainToml
          { Bison := some ⟨gs "/tc/bison-3.8.2/tests/bison", gs "1.0"⟩ } ∧
    stringsHasPrefix (gs "/tc/bison-3.8.2/tests/bison") (gs "/tc/") = true ∧
    goRel (gs "/tc") (gs "/tc/bison-3.8.2/tests/bison")
      = some (gs "bison-3.8.2/tests/bison") ∧
    gs "1.0" ≠ gs "3.8.2" := by
  refine ⟨?_, ?_, ?_, ?_⟩ <;> decide

/-- C3 (amended): a successful bpf_asm bootstrap records the executable
path relativized to the toolchain root (joining the toolchain root back
onto it recovers the full built path, and it is not absolute) together
with the effective version; a successful Bison recording instead stores
the full absolute path under the toolchain directory and leaves whatever
version was previously recorded untouched. -/
theorem c3_amended_recording_shapes :
    ((BootstrapBpfAsm btcInstall c3LinuxCfg c3RunWorld).err = none ∧
     (BootstrapBpfAsm btcInstall c3LinuxCfg c3RunWorld).world.store
       = some ⟨tempestToolchainBanner,
           { Flex := some ⟨gs "fx", gs "2.6.4"⟩,
             BpfAsm := some ⟨gs "bpf_asm-6.6.2/tools/bpf/bpf_asm", gs "6.6.2"⟩ }⟩ ∧
     goJoin [gs "/tc", gs "bpf_asm-6.6.2/tools/bpf/bpf_asm"]
       = goJoin [gs "/tc/bpf_asm-6.6.2/tools/bpf", gs "bpf_asm"] ∧
     stringsHasPrefix (gs "bpf_asm-6.6.2/tools/bpf/bpf_asm") (gs "/") = false) ∧
    (∀ store : ToolchainStore,
      ∃ f, updateBisonToolchainToml store
          (bisonRecordedExecutable (gs "/tc") (gs "3.8.2")) = some f ∧
        (f.toml.Bison.getD {}).Executable = gs "/tc/bison-3.8.2/tests/bison" ∧
        (f.toml.Bison.getD {}).Version
          = ((readToolchainTomlOrNew store).Bison.getD {}).Version ∧
        f.toml.BpfAsm = (readToolchainTomlOrNew store).BpfAsm) := by
  constructor
  · refine ⟨?_, ?_, ?_, ?_⟩ <;> decide
  · intro store
    refine ⟨_, rfl, ?_, rfl, rfl⟩
    show bisonRecordedExecutable (gs "/tc") (gs "3.8.2")
      = gs "/tc/bison-3.8.2/tests/bison"
    decide

/-- C5 (counterexample): reading the registry immediately after a
successful Bison recording at effective version 3.8.2 reports the stale
version 1.0, not the version just installed — the Bison update writes
only the executable field. -/
theorem c5_counterexample_bison_roundtrip_stale_version :
    ∃ t, ReadToolchainToml (updateBisonToolchainToml c5Prior
        (bisonRecordedExecutable (gs "/tc") (gs "3.8.2"))) = .ok t ∧
      (t.Bison.getD {}).Version = gs "1.0" ∧
      (t.Bison.getD {}).Version ≠ gs "3.8.2" :=
  ⟨_, rfl, by decide, by decide⟩

/-- C5 (amended): for bpf_asm (and Flex, whose update has the same
shape) the round trip is exact: reading immediately after an update
reports precisely the executable and version just recorded, every other
tool's record is byte-for-byte the prior one, and the file written
carries the machine-managed banner.  (Bison's update, which records no
version, is the counterexample.) -/
theorem c5_amended_bpfasm_roundtrip_and_frame :
    ∀ (store : ToolchainStore) (executable version : GoStr),
      (∃ t, ReadToolchainToml (updateBpfAsmToolchainToml store executable version)
          = .ok t ∧
        t.BpfAsm = some ⟨executable, version⟩ ∧
        t.Binaryen = (readToolchainTomlOrNew store).Binaryen ∧
        t.Bison = (readToolchainTomlOrNew store).Bison ∧
        t.CapnProto = (readToolchainTomlOrNew store).CapnProto ∧
        t.Flex = (readToolchainTomlOrNew store).Flex ∧
        t.Go = (readToolchainTomlOrNew store).Go ∧
        t.GoCapnp = (readToolchainTomlOrNew store).GoCapnp ∧
        t.TinyGo = (readToolchainTomlOrNew store).TinyGo ∧
        updateBpfAsmToolchainToml store executable version
          = some ⟨tempestToolchainBanner, t⟩) ∧
      (∃ t2, ReadToolchainToml (updateFlexToolchainToml store executable version)
          = .ok t2 ∧
        t2.Flex = some ⟨executable, version⟩ ∧
        t2.BpfAsm = (readToolchainTomlOrNew store).BpfAsm) := by
  intro store executable version
  exact ⟨⟨_, rfl, rfl, rfl, rfl, rfl, rfl, rfl, rfl, rfl, rfl⟩, ⟨_, rfl, rfl, rfl⟩⟩

/-- C4 (counterexample): with no user executable, a Bison toolchain
record at version 1.0 and an effective version of 3.8.2, configuration
resolution still sets the effective executable to the recorded one
(made absolute) instead of the empty "must install" value the claim
requires on a version mismatch. -/
theorem c4_counterexample_bison_ignores_version_match :
    (populateBisonRuntimeConfig (gs "/cwd") {} {} { PreferredVersion := gs "3.8.2" }
        c4BisonToolchain).map
        (fun rc => (rc.Executable, rc.version, rc.toolchainVersion))
      = .ok (gs "/old/bison", gs "3.8.2", gs "1.0") ∧
    gs "/old/bison" ≠ ([] : GoStr) ∧
    gs "3.8.2" ≠ gs "1.0" := by
  refine ⟨rfl, ?_, ?_⟩ <;> decide

/-- C4 (amended): bpf_asm's resolution follows the claimed cascade —
user executable, else the toolchain-recorded executable made absolute
only when the recorded version matches the effective version, else
empty.  Bison's resolution (like the other download tools') takes the
toolchain-recorded executable whenever one is recorded, with no version
comparison. -/
theorem c4_amended_executable_cascade :
    (∀ (cwd : GoStr) (directories : runtimeConfigDirectories)
       (configFile : ConfigTomlBpfAsm) (toolchainToml : ToolchainTomlTopLevel)
       (configFileLinux : ConfigTomlLinux) (downloadsFileLinux : DownloadsTomlLinux)
       (rc : runtimeConfigBpfAsm),
      populateBpfAsmRuntimeConfig cwd directories configFile toolchainToml
          configFileLinux downloadsFileLinux = .ok rc →
      ((configFile.Executable ≠ [] → rc.Executable = configFile.Executable) ∧
       (configFile.Executable = [] → toolchainToml.BpfAsm = none →
         rc.Executable = []) ∧
       (∀ b, configFile.Executable = [] → toolchainToml.BpfAsm = some b →
         rc.Executable = if b.Executable ≠ [] ∧ b.Version = rc.version
           then goAbs cwd b.Executable else []))) ∧
    (∀ (cwd : GoStr) (directories : runtimeConfigDirectories)
       (configFile : ConfigTomlBison) (downloadsFile : DownloadsTomlBison)
       (toolchainToml : ToolchainTomlTopLevel) (rc : runtimeConfigBison)
       (b : ToolchainTomlTool),
      populateBisonRuntimeConfig cwd directories configFile downloadsFile
          toolchainToml = .ok rc →
      configFile.Executable = [] → toolchainToml.Bison = some b →
      b.Executable ≠ [] →
      rc.Executable = goAbs cwd b.Executable) := by
  constructor
  · intro cwd directories configFile toolchainToml configFileLinux downloadsFileLinux
      rc h
    by_cases hv : populateBpfAsmVersion configFileLinux downloadsFileLinux = []
    · simp only [populateBpfAsmRuntimeConfig, if_pos hv] at h
      cases h
    · simp only [populateBpfAsmRuntimeConfig, if_neg hv] at h
      injection h with h2
      subst h2
      refine ⟨?_, ?_, ?_⟩
      · intro hne
        simp [populateBpfAsmExecutable, hne]
      · intro hemp hnone
        simp [populateBpfAsmExecutable, hemp, hnone]
      · intro b hemp hsome
        simp [populateBpfAsmExecutable, hemp, hsome]
  · intro cwd directories configFile downloadsFile toolchainToml rc b h hemp hsome hbne
    by_cases hv : populateBisonVersion configFile downloadsFile = []
    · simp only [populateBisonRuntimeConfig, if_pos hv] at h
      cases h
    · simp only [populateBisonRuntimeConfig, if_neg hv] at h
      injection h with h2
      subst h2
      simp [populateBisonExecutable, hemp, hsome, hbne]

/-- Witness for the amended C4 theorem at concrete inputs: Bison resolves
to the recorded executable despite the version mismatch, while bpf_asm
resolves to empty on the same mismatch. -/
theorem c4_witness :
    populateBisonRuntimeConfig (gs "/cwd") {} {} { PreferredVersion := gs "3.8.2" }
        c4BisonToolchain = .ok c4ResolvedBison ∧
    c4ResolvedBison.Executable = goAbs (gs "/cwd") (gs "/old/bison") ∧
    populateBpfAsmRuntimeConfig (gs "/cwd") {} {} c4BpfToolchain {}
        { PreferredVersion := gs "6.6.2" } = .ok c4ResolvedBpfAsm ∧
    c4ResolvedBpfAsm.Executable = [] := by
  refine ⟨rfl, ?_, rfl, ?_⟩
  · exact c4_amended_executable_cascade.2 (gs "/cwd") {} {}
      { PreferredVersion := gs "3.8.2" } c4BisonToolchain c4ResolvedBison
      ⟨gs "/old/bison", gs "1.0"⟩ rfl rfl rfl (by decide)
  · have h := c4_amended_executable_cascade.1 (gs "/cwd") {} {} c4BpfToolchain {}
      { PreferredVersion := gs "6.6.2" } c4ResolvedBpfAsm rfl
    have h3 := h.2.2 ⟨gs "/old/bpf_asm", gs "6.6.1"⟩ rfl rfl
    rw [h3]
    decide

/-- Once a file's compile stage fails, the pipeline's result does not
depend on the files after it. -/
theorem generateCapnpLoop_stops (compile : GoStr → Option GoStr)
    (plugin : GoStr → GoStr → Bool) (f : GoStr) (hf : compile f = none) :
    ∀ (pre post : List GoStr) (messages : List String) (events : List GenEvent),
      generateCapnpLoop compile plugin (pre ++ f :: post) messages events
        = generateCapnpLoop compile plugin (pre ++ [f]) messages events := by
  intro pre
  induction pre with
  | nil =>
    intro post messages events
    simp [generateCapnpLoop, codeGeneratorRequestWithCapnp, hf]
  | cons hd tl ih =>
    intro post messages events
    simp only [List.cons_append, generateCapnpLoop]
    cases hc : compile hd with
    | none => simp [codeGeneratorRequestWithCapnp, hc]
    | some cgr =>
      simp only [codeGeneratorRequestWithCapnp, hc]
      exact ih post messages _

/-- A file list ending in a file whose compile stage fails always yields
an error result. -/
theorem generateCapnpLoop_err (compile : GoStr → Option GoStr)
    (plugin : GoStr → GoStr → Bool) (f : GoStr) (hf : compile f = none) :
    ∀ (pre : List GoStr) (messages : List String) (events : List GenEvent),
      (generateCapnpLoop compile plugin (pre ++ [f]) messages events).2.2 ≠ none := by
  intro pre
  induction pre with
  | nil =>
    intro messages events
    simp [generateCapnpLoop, codeGeneratorRequestWithCapnp, hf]
  | cons hd tl ih =>
    intro messages events
    simp only [List.cons_append, generateCapnpLoop]
    cases hc : compile hd with
    | none => simp [codeGeneratorRequestWithCapnp, hc]
    | some cgr =>
      simp only [codeGeneratorRequestWithCapnp, hc]
      exact ih messages _

/-- When every file compiles, the pipeline succeeds with unchanged
messages and emits both stages' events per file, for any plugin
behaviour whatsoever. -/
theorem generateCapnpLoop_plugin_ignored (compile : GoStr → Option GoStr) :
    ∀ (files : List GoStr) (plugin : GoStr → GoStr → Bool)
      (messages : List String) (events : List GenEvent),
      (∀ x ∈ files, compile x ≠ none) →
      generateCapnpLoop compile plugin files messages events
        = (messages,
           events ++ (files.map (fun f => [GenEvent.compiled f, .pluginRan f])).flatten,
           none) := by
  intro files
  induction files with
  | nil =>
    intro plugin messages events _
    simp [generateCapnpLoop]
  | cons hd tl ih =>
    intro plugin messages events hok
    cases hc : compile hd with
    | none => exact absurd hc (hok hd (List.mem_cons_self hd tl))
    | some cgr =>
      simp only [generateCapnpLoop, codeGeneratorRequestWithCapnp, hc]
      rw [ih plugin messages _
        (fun x hx => hok x (List.mem_cons_of_mem hd hx))]
      simp

/-- C8 (counterexample): with two globbed schema files whose first fails
its compile stage, the pipeline returns that error for the whole run —
the second file is never processed (no event for it) and only the single
failure message is returned, contradicting continue-on-error with
accumulated per-file failures. -/
theorem c8_counterexample_first_failure_aborts_run :
    GenerateCapnp c8Config c8Glob c8Compile (fun _ _ => true)
      = (["Failed to create CodeGeneratorRequest for file a.capnp"],
         [.compiled (gs "a.capnp")],
         some (.errorf "capnp compile exited non-zero")) := by
  decide

/-- C8 (amended): a compile-stage failure aborts the whole pipeline at
that file (the result does not depend on, and no event is emitted for,
any later file, and the run returns an error), while a plugin-stage
failure is ignored entirely: when every file compiles the run succeeds
with no failure message regardless of the plugin's exit status. -/
theorem c8_amended_failure_handling
    (compile : GoStr → Option GoStr) (plugin plugin2 : GoStr → GoStr → Bool)
    (pre post files : List GoStr) (f : GoStr)
    (messages : List String) (events : List GenEvent)
    (hf : compile f = none)
    (hok : ∀ x ∈ files, compile x ≠ none) :
    (generateCapnpLoop compile plugin (pre ++ f :: post) messages events
      = generateCapnpLoop compile plugin (pre ++ [f]) messages events ∧
     (generateCapnpLoop compile plugin (pre ++ [f]) messages events).2.2 ≠ none) ∧
    (generateCapnpLoop compile plugin files messages events
      = generateCapnpLoop compile plugin2 files messages events ∧
     (generateCapnpLoop compile plugin files messages events).1 = messages ∧
     (generateCapnpLoop compile plugin files messages events).2.2 = none) := by
  refine ⟨⟨generateCapnpLoop_stops compile plugin f hf pre post messages events,
    generateCapnpLoop_err compile plugin f hf pre messages events⟩, ?_, ?_, ?_⟩
  · rw [generateCapnpLoop_plugin_ignored compile files plugin messages events hok,
      generateCapnpLoop_plugin_ignored compile files plugin2 messages events hok]
  · rw [generateCapnpLoop_plugin_ignored compile files plugin messages events hok]
  · rw [generateCapnpLoop_plugin_ignored compile files plugin messages events hok]

/-- Witness for the amended C8 theorem at concrete inputs. -/
theorem c8_witness :
    (generateCapnpLoop c8Compile (fun _ _ => true)
        ([] ++ gs "a.capnp" :: [gs "b.capnp"]) [] []
      = generateCapnpLoop c8Compile (fun _ _ => true) ([] ++ [gs "a.capnp"]) [] [] ∧
     (generateCapnpLoop c8Compile (fun _ _ => true)
        ([] ++ [gs "a.capnp"]) [] []).2.2 ≠ none) ∧
    (generateCapnpLoop c8Compile (fun _ _ => true) [gs "b.capnp"] [] []
      = generateCapnpLoop c8Compile (fun _ _ => false) [gs "b.capnp"] [] [] ∧
     (generateCapnpLoop c8Compile (fun _ _ => true) [gs "b.capnp"] [] []).1 = [] ∧
     (generateCapnpLoop c8Compile (fun _ _ => true) [gs "b.capnp"] [] []).2.2 = none) :=
  c8_amended_failure_handling c8Compile (fun _ _ => true) (fun _ _ => false)
    [] [gs "b.capnp"] [gs "b.capnp"] (gs "a.capnp") [] []
    (by decide) (by decide)

/-- C2: in `BootstrapCapnProto`, once control reaches verification of the
cached download, the size check runs first — if it fails, the run stops
with that error before the hash is ever consulted, with no extraction, no
registry write, and the cached file left in place; if the size matches
but the hash does not, the run stops with the hash error, again with no
extraction, no registry write, and the cached file left in place. -/
theorem c2_size_before_hash_failures_contained
    (ef eu : GoStr) (btc : RuntimeConfigBuildTool) (w : BtWorld)
    (cfg : capnProtoConfig) (fi : GoFileInfo) (exB : Bool) (dp : GoStr)
    (hcfg : getCapnProtoConfig ef eu btc = .ok cfg)
    (hexe : cfg.executable = [])
    (htce : cfg.toolchainExecutable ≠ [])
    (hstat : fileExistsAtPath w.fs cfg.executable = .ok exB)
    (hdp : dp = goJoin [(btc.Directories.getD {}).DownloadDir, cfg.downloadFile])
    (hcache : w.fs dp = .found fi)
    (hnotdir : fi.isDir = false) :
    (fi.size ≠ cfg.expectedFileSize →
      (BootstrapCapnProto ef eu btc w).err
        = some (.errorf "Expected size EXPECTED found size FOUND") ∧
      (BootstrapCapnProto ef eu btc w).events = [.checkedSize dp] ∧
      (BootstrapCapnProto ef eu btc w).world.store = w.store ∧
      (BootstrapCapnProto ef eu btc w).world.fs dp = .found fi) ∧
    (fi.size = cfg.expectedFileSize → fi.sha256Hex ≠ cfg.expectedSha256 →
      (BootstrapCapnProto ef eu btc w).err
        = some (.errorf "Expected SHA-256 EXPECTED found SHA-256 FOUND") ∧
      (BootstrapCapnProto ef eu btc w).events
        = [.checkedSize dp, .checkedSha256 dp] ∧
      (BootstrapCapnProto ef eu btc w).world.store = w.store ∧
      (BootstrapCapnProto ef eu btc w).world.fs dp = .found fi) := by
  have hc1 : ¬ (cfg.executable = cfg.toolchainExecutable) := by
    rw [hexe]
    exact fun hcc => htce hcc.symm
  have hc2 : ¬ (cfg.executable ≠ []) := fun hcc => hcc hexe
  subst hdp
  have hrun : BootstrapCapnProto ef eu btc w = capnProtoInstallPhase btc cfg w := by
    unfold BootstrapCapnProto
    simp only [hcfg, hstat]
    rw [if_neg hc1, if_neg hc2]
  have hfe : fileExistsAtPath w.fs
      (goJoin [(btc.Directories.getD {}).DownloadDir, cfg.downloadFile]) = .ok true := by
    simp [fileExistsAtPath, hcache, hnotdir]
  constructor
  · intro hsize
    have hv : verifyFileSize cfg.expectedFileSize w.fs
        (goJoin [(btc.Directories.getD {}).DownloadDir, cfg.downloadFile])
        = .error (.errorf "Expected size EXPECTED found size FOUND") := by
      simp [verifyFileSize, hcache, hsize]
    rw [hrun]
    unfold capnProtoInstallPhase
    simp only [hfe, hv, if_true, List.nil_append]
    simp [hcache]
  · intro hsize hsha
    have hv : verifyFileSize cfg.expectedFileSize w.fs
        (goJoin [(btc.Directories.getD {}).DownloadDir, cfg.downloadFile])
        = .ok () := by
      simp [verifyFileSize, hcache, hsize]
    have hvs : verifySha256 cfg.expectedSha256 w.fs
        (goJoin [(btc.Directories.getD {}).DownloadDir, cfg.downloadFile])
        = .error (.errorf "Expected SHA-256 EXPECTED found SHA-256 FOUND") := by
      simp [verifySha256, hcache, hsha]
    rw [hrun]
    unfold capnProtoInstallPhase
    simp only [hfe, hv, hvs, if_true, List.nil_append]
    simp [hcache]

/-- Witness for C2 at concrete inputs: a wrong-size cached download stops
the bootstrap at the size check, before hashing, extraction or any
registry write, and the cached file survives. -/
theorem c2_witness :
    (BootstrapCapnProto (gs "capnproto-c++-1.1.0.tar.gz")
        (gs "https://capnp.example/capnproto-c++-1.1.0.tar.gz") btcCapnProto c2World).err
      = some (.errorf "Expected size EXPECTED found size FOUND") ∧
    (BootstrapCapnProto (gs "capnproto-c++-1.1.0.tar.gz")
        (gs "https://capnp.example/capnproto-c++-1.1.0.tar.gz") btcCapnProto c2World).events
      = [.checkedSize (gs "/dl/capnproto-c++-1.1.0.tar.gz")] ∧
    (BootstrapCapnProto (gs "capnproto-c++-1.1.0.tar.gz")
        (gs "https://capnp.example/capnproto-c++-1.1.0.tar.gz") btcCapnProto
        c2World).world.store = c2World.store ∧
    (BootstrapCapnProto (gs "capnproto-c++-1.1.0.tar.gz")
        (gs "https://capnp.example/capnproto-c++-1.1.0.tar.gz") btcCapnProto
        c2World).world.fs (gs "/dl/capnproto-c++-1.1.0.tar.gz")
      = .found { size := 3, sha256Hex := gs "beef" } :=
  (c2_size_before_hash_failures_contained
    (gs "capnproto-c++-1.1.0.tar.gz")
    (gs "https://capnp.example/capnproto-c++-1.1.0.tar.gz")
    btcCapnProto c2World c2Cfg { size := 3, sha256Hex := gs "beef" } false
    (gs "/dl/capnproto-c++-1.1.0.tar.gz")
    rfl rfl (by decide) rfl (by decide) rfl rfl).1 (by decide)
